import Mathlib

/-!
Verification development for the `unreal_dissection` analyser.

The Lean definitions below are shallow embeddings of the Python source:

* `MemoryStream` and its typed readers embed `stream.py`;
* the UTF-8 decoder models Python's strict `bytes.decode('utf-8')`;
* `findCalls` embeds `search.py` and `Image.findCalls` its `lieftools.py`
  wrapper;
* the record layouts, validators and the seed categorisation embed
  `ue/native_structs.py`, `ue/z_construct.py` and `struct.py`;
* the instruction-level parsers embed `dissassembly.py` and
  `ue/functions.py` over an explicit instruction memory;
* the generic worklist embeds `discovery/system.py`,
  `discovery/core.py` and `discovery/function.py`.

Machine integers are modelled as `Nat`/`Int` (Python integers are unbounded;
the readers mask by construction).  Fallible operations return `Option` or
`Except`, with one constructor per distinct Python exception where the
distinction is observable.
-/

namespace UD

/-! ## Stream model (`stream.py`)

`MemoryStream` holds an immutable byte window, a base RVA, a cursor and the
`verify_alignment` flag.  Bytes are `Nat` values below 256.  Reads that raise
in Python (`struct.error` on a short buffer, `AlignmentError` on a misaligned
strict read) return `none`.
-/

structure MemoryStream where
  memory : List Nat
  base : Nat
  pos : Nat
  verifyAlignment : Bool
deriving Repr, DecidableEq

namespace MemoryStream

/-- Current RVA of the cursor (`addr` property: `_pos + _base`). -/
def addr (s : MemoryStream) : Nat := s.pos + s.base

/-- Little-endian value of `size` bytes at `p` (as `struct.unpack_from` with
an unsigned format would produce; bytes past the end read as 0, but every
reader below guards `p + size ≤ memory.length` first, as `unpack_from`
raises on a short buffer). -/
def leVal (m : List Nat) (p size : Nat) : Nat :=
  match size with
  | 0 => 0
  | n + 1 => m.getD p 0 % 256 + 256 * leVal m (p + 1) n

/-- Signed reinterpretation of a `size`-byte little-endian value
(models the signed `struct` formats `b`, `h`, `i`, `q`). -/
def toSigned (size v : Nat) : Int :=
  if v < 2 ^ (8 * size - 1) then (v : Int) else (v : Int) - 2 ^ (8 * size)

/-- Advance the cursor by `n` (`skip`). -/
def skip (s : MemoryStream) (n : Nat) : MemoryStream := { s with pos := s.pos + n }

/-- Round the cursor up to a multiple of `a` (`align`; the source computes
`(pos + align - 1) & ~(align - 1)`, identical for the power-of-two
alignments 2, 4 and 8 used). -/
def alignTo (s : MemoryStream) (a : Nat) : MemoryStream :=
  { s with pos := (s.pos + a - 1) - (s.pos + a - 1) % a }

/-- Read of `memory[pos:pos+len]` (`bytes`); Python slicing clamps, so this
never fails. -/
def bytes (s : MemoryStream) (len : Nat) (peek : Bool) : List Nat × MemoryStream :=
  ((s.memory.drop s.pos).take len, if peek then s else s.skip len)

/-- Unsigned 8-bit read (`u8`): no alignment check. -/
def u8 (s : MemoryStream) (peek : Bool) : Option (Nat × MemoryStream) :=
  if s.pos + 1 ≤ s.memory.length then
    some (leVal s.memory s.pos 1, if peek then s else s.skip 1)
  else none

/-- Unsigned 16-bit read (`u16`): strict streams fail on a misaligned cursor. -/
def u16 (s : MemoryStream) (peek : Bool) : Option (Nat × MemoryStream) :=
  if s.verifyAlignment ∧ s.pos % 2 ≠ 0 then none
  else if s.pos + 2 ≤ s.memory.length then
    some (leVal s.memory s.pos 2, if peek then s else s.skip 2)
  else none

/-- Unsigned 32-bit read (`u32`). -/
def u32 (s : MemoryStream) (peek : Bool) : Option (Nat × MemoryStream) :=
  if s.verifyAlignment ∧ s.pos % 4 ≠ 0 then none
  else if s.pos + 4 ≤ s.memory.length then
    some (leVal s.memory s.pos 4, if peek then s else s.skip 4)
  else none

/-- Unsigned 64-bit read (`u64`). -/
def u64 (s : MemoryStream) (peek : Bool) : Option (Nat × MemoryStream) :=
  if s.verifyAlignment ∧ s.pos % 8 ≠ 0 then none
  else if s.pos + 8 ≤ s.memory.length then
    some (leVal s.memory s.pos 8, if peek then s else s.skip 8)
  else none

/-- Signed 8-bit read (`s8`). -/
def s8 (s : MemoryStream) (peek : Bool) : Option (Int × MemoryStream) :=
  if s.pos + 1 ≤ s.memory.length then
    some (toSigned 1 (leVal s.memory s.pos 1), if peek then s else s.skip 1)
  else none

/-- Signed 16-bit read (`s16`). -/
def s16 (s : MemoryStream) (peek : Bool) : Option (Int × MemoryStream) :=
  if s.verifyAlignment ∧ s.pos % 2 ≠ 0 then none
  else if s.pos + 2 ≤ s.memory.length then
    some (toSigned 2 (leVal s.memory s.pos 2), if peek then s else s.skip 2)
  else none

/-- Signed 32-bit read (`s32`). -/
def s32 (s : MemoryStream) (peek : Bool) : Option (Int × MemoryStream) :=
  if s.verifyAlignment ∧ s.pos % 4 ≠ 0 then none
  else if s.pos + 4 ≤ s.memory.length then
    some (toSigned 4 (leVal s.memory s.pos 4), if peek then s else s.skip 4)
  else none

/-- Signed 64-bit read (`s64`). -/
def s64 (s : MemoryStream) (peek : Bool) : Option (Int × MemoryStream) :=
  if s.verifyAlignment ∧ s.pos % 8 ≠ 0 then none
  else if s.pos + 8 ≤ s.memory.length then
    some (toSigned 8 (leVal s.memory s.pos 8), if peek then s else s.skip 8)
  else none

/-- Helper for `ptr_array`: read `count` consecutive `u64` values, advancing. -/
def readPtrLoop : MemoryStream → Nat → Option (List Nat × MemoryStream)
  | s, 0 => some ([], s)
  | s, n + 1 =>
    match s.u64 false with
    | none => none
    | some (v, s') =>
      match readPtrLoop s' n with
      | none => none
      | some (vs, s'') => some (v :: vs, s'')

/-- Array-of-pointers read (`ptr_array`): `count == 0` returns `[]` without
moving; with `peek` the reads happen on a clone, leaving `self` untouched. -/
def ptrArray (s : MemoryStream) (count : Nat) (peek : Bool) :
    Option (List Nat × MemoryStream) :=
  if count = 0 then some ([], s)
  else
    match readPtrLoop s count with
    | none => none
    | some (vs, s') => some (vs, if peek then s else s')

end MemoryStream

end UD

namespace UD

/-! ## Zero-terminated string readers (`stream.py`)

Python's strict `bytes.decode('utf-8')` is modelled by `utf8Decode`,
which rejects truncated sequences, stray continuation bytes, overlong
encodings, surrogates and values above `U+10FFFF`, exactly as CPython's
strict error handler does.  Decoded text is a list of code points.
-/

/-- Strict UTF-8 decoding of a byte list to a list of code points; `none`
models `UnicodeDecodeError`. -/
def utf8Decode : List Nat → Option (List Nat)
  | [] => some []
  | b :: rest =>
    if b < 0x80 then (utf8Decode rest).map (b :: ·)
    else if 0xC2 ≤ b ∧ b ≤ 0xDF then
      match rest with
      | c1 :: rest' =>
        if 0x80 ≤ c1 ∧ c1 ≤ 0xBF then
          (utf8Decode rest').map (((b - 0xC0) * 64 + (c1 - 0x80)) :: ·)
        else none
      | [] => none
    else if 0xE0 ≤ b ∧ b ≤ 0xEF then
      match rest with
      | c1 :: c2 :: rest' =>
        if (if b = 0xE0 then 0xA0 else 0x80) ≤ c1 ∧
            c1 ≤ (if b = 0xED then 0x9F else 0xBF) ∧
            0x80 ≤ c2 ∧ c2 ≤ 0xBF then
          (utf8Decode rest').map
            (((b - 0xE0) * 4096 + (c1 - 0x80) * 64 + (c2 - 0x80)) :: ·)
        else none
      | _ => none
    else if 0xF0 ≤ b ∧ b ≤ 0xF4 then
      match rest with
      | c1 :: c2 :: c3 :: rest' =>
        if (if b = 0xF0 then 0x90 else 0x80) ≤ c1 ∧
            c1 ≤ (if b = 0xF4 then 0x8F else 0xBF) ∧
            0x80 ≤ c2 ∧ c2 ≤ 0xBF ∧ 0x80 ≤ c3 ∧ c3 ≤ 0xBF then
          (utf8Decode rest').map
            (((b - 0xF0) * 0x40000 + (c1 - 0x80) * 4096 + (c2 - 0x80) * 64 +
              (c3 - 0x80)) :: ·)
        else none
      | _ => none
    else none

/-- Code points of `DEFAULT_ALLOW_CHARS`
(`'abc…xyzABC…XYZ012…9_.=-+*()/\:,;#'`), in source order. -/
def defaultAllowChars : List Nat :=
  (List.range 26).map (97 + ·) ++ (List.range 26).map (65 + ·) ++
    (List.range 10).map (48 + ·) ++
    [95, 46, 61, 45, 43, 42, 40, 41, 47, 92, 58, 44, 59, 35]

namespace MemoryStream

/-- Strict zero-terminated UTF-8 read (`utf8zt`).  The cursor side effects
are kept faithfully: the scan advances the cursor once per examined byte,
even on the failure paths.  The first component is `none` exactly where the
Python method raises (`String too long` when no NUL lies within the limited
window, `UnicodeDecodeError`, or a character outside `allow_chars`). -/
def utf8zt (s : MemoryStream) (allowChars : Option (List Nat)) (limit : Nat) :
    Option (List Nat) × MemoryStream :=
  let slice := (s.memory.drop s.pos).take limit
  match slice.findIdx? (· == 0) with
  | none => (none, s.skip slice.length)
  | some i =>
    let s' := s.skip (i + 1)
    match utf8Decode (slice.take i) with
    | none => (none, s')
    | some text =>
      match allowChars with
      | none => (some text, s')
      | some allowed =>
        if text.all (fun c => allowed.contains c) then (some text, s')
        else (none, s')

/-- Tolerant zero-terminated UTF-8 read (`utf8zt_safe`).  The scan is the
same, but a missing NUL does not fail: the decode then covers the whole
limited window.  Only a decode error or a disallowed character yields
`none`. -/
def utf8ztSafe (s : MemoryStream) (allowChars : Option (List Nat)) (limit : Nat) :
    Option (List Nat) × MemoryStream :=
  let slice := (s.memory.drop s.pos).take limit
  let size := match slice.findIdx? (· == 0) with
    | none => slice.length
    | some i => i
  let s' := match slice.findIdx? (· == 0) with
    | none => s.skip slice.length
    | some i => s.skip (i + 1)
  match utf8Decode (slice.take size) with
  | none => (none, s')
  | some text =>
    match allowChars with
    | none => (some text, s')
    | some allowed =>
      if text.all (fun c => allowed.contains c) then (some text, s')
      else (none, s')

end MemoryStream

/-! ## Call-site search (`search.py`, `lieftools.py`) -/

/-- Scan for `CALL rel32` instructions targeting `target` (`find_calls` in
`search.py`): for each `offset in range(len(memory) - 5)` whose byte is
`0xE8`, decode the signed little-endian displacement from the next four
bytes and yield `offset + base_address` when
`base_address + offset + 5 + delta == target`. -/
def findCalls (target : Nat) (memory : List Nat) (baseAddress : Nat) : List Nat :=
  (List.range (memory.length - 5)).filterMap (fun offset =>
    if memory.getD offset 0 = 0xE8 then
      if (baseAddress + offset + 5 : Int) +
          MemoryStream.toSigned 4 (MemoryStream.leVal memory (offset + 1) 4) =
          (target : Int) then
        some (offset + baseAddress)
      else none
    else none)

/-- Section-level wrapper (`Image.find_calls` in `lieftools.py`): it obtains
the section memory and yields `offset + base` for each value produced by
`find_calls` — which already added the base once. -/
def imageFindCalls (target : Nat) (memory : List Nat) (base : Nat) : List Nat :=
  (findCalls target memory base).map (· + base)

/-! ## Auto-aligned stream (`AutoAlignedMemoryStream`)

`from_stream` copies the window with `verify_alignment=False`; each
multi-byte read first rounds the cursor up when the current *address*
is misaligned (the source aligns the offset, which coincides with aligning
the address whenever the base is aligned).  `u8` is not overridden.
-/

namespace MemoryStream

/-- Copy of the stream as made by `AutoAlignedMemoryStream.from_stream`. -/
def autoAligned (s : MemoryStream) : MemoryStream := { s with verifyAlignment := false }

/-- Auto-aligned `u16`. -/
def au16 (s : MemoryStream) (peek : Bool) : Option (Nat × MemoryStream) :=
  (if s.addr % 2 ≠ 0 then s.alignTo 2 else s).u16 peek

/-- Auto-aligned `u32`. -/
def au32 (s : MemoryStream) (peek : Bool) : Option (Nat × MemoryStream) :=
  (if s.addr % 4 ≠ 0 then s.alignTo 4 else s).u32 peek

/-- Auto-aligned `u64`. -/
def au64 (s : MemoryStream) (peek : Bool) : Option (Nat × MemoryStream) :=
  (if s.addr % 8 ≠ 0 then s.alignTo 8 else s).u64 peek

/-- Auto-aligned `s16`. -/
def as16 (s : MemoryStream) (peek : Bool) : Option (Int × MemoryStream) :=
  (if s.addr % 2 ≠ 0 then s.alignTo 2 else s).s16 peek

/-- Auto-aligned `s32`. -/
def as32 (s : MemoryStream) (peek : Bool) : Option (Int × MemoryStream) :=
  (if s.addr % 4 ≠ 0 then s.alignTo 4 else s).s32 peek

/-- Auto-aligned `s64`. -/
def as64 (s : MemoryStream) (peek : Bool) : Option (Int × MemoryStream) :=
  (if s.addr % 8 ≠ 0 then s.alignTo 8 else s).s64 peek

end MemoryStream

/-! ## `PropertyParams` (`ue/native_structs.py`, `ue/native_enums.py`)

Version tuples are lists of naturals compared with Python tuple ordering.
The `STRICT` flag enumerations raise `ValueError` on undefined bits; this is
modelled by bit-mask guards.  `EObjectFlags` defines every bit of a `u32`,
so no guard is needed for it.
-/

/-- Python tuple `<` on version tuples (lexicographic; a proper prefix is
smaller). -/
def tupLt : List Nat → List Nat → Bool
  | [], [] => false
  | [], _ :: _ => true
  | _ :: _, [] => false
  | a :: as, b :: bs => if a < b then true else if b < a then false else tupLt as bs

/-- Defined-bit mask of `EPropertyFlags` (bits 0–11, 13, 14, 16–19, 21, 24,
25, 27–36, 38–55; `STRICT` raises when any other bit is set). -/
def epropertyFlagsMask : Nat :=
  [0, 1, 2, 3, 4, 5, 6, 7, 8, 9, 10, 11, 13, 14, 16, 17, 18, 19, 21, 24, 25,
    27, 28, 29, 30, 31, 32, 33, 34, 35, 36, 38, 39, 40, 41, 42, 43, 44, 45,
    46, 47, 48, 49, 50, 51, 52, 53, 54, 55].foldl (fun acc b => acc + 2 ^ b) 0

/-- Numeric codes of `EPropertyGenFlags` relevant to the parser tails. -/
def kindBool : Nat := 0x0c

/-- Property record parsed by `PropertyParams.deserialize`.  Fields that are
only assigned on some code paths are `Option`s. -/
structure PropertyParams where
  NameUTF8Ptr : Nat
  RepNotifyFuncUTF8Ptr : Nat
  PropertyFlags : Nat
  FlagsFull : Nat
  ObjectFlags : Nat
  ArrayDim : Int
  SetterFuncPtr : Option Nat
  GetterFuncPtr : Option Nat
  Offset : Option Nat
  ArrayFlags : Option Nat
  ElementSize : Option Nat
  SizeOfOuter : Option Nat
  SetBitFuncPtr : Option Nat
  EnumFuncPtr : Option Nat
  ClassFuncPtr : Option Nat
  MetaClassFuncPtr : Option Nat
  SignatureFunctionFuncPtr : Option Nat
  PropertyClassFuncPtr : Option Nat
  InterfaceClassFuncPtr : Option Nat
  MapFlags : Option Nat
  ScriptStructFuncPtr : Option Nat
deriving Repr, DecidableEq

/-- Kind-specific tail of `PropertyParams.deserialize` (the `match` on
`self.Flags.value`), applied to the record built so far. -/
def propertyTail (v : List Nat) (kind : Nat) (r : PropertyParams)
    (s : MemoryStream) : Option (PropertyParams × MemoryStream) := do
  if kind = 0x16 then do
    let (af, s) ← if tupLt v [5, 3] then s.au32 false else s.u8 false
    if af &&& 1 = af then pure ({ r with ArrayFlags := some af }, s) else none
  else if kind = 0x0c then do
    if tupLt v [5, 3] then do
      let (es, s) ← s.au32 false
      let (so, s) ← s.au64 false
      let (sb, s) ← s.au64 false
      pure ({ r with ElementSize := some es, SizeOfOuter := some so,
                     SetBitFuncPtr := some sb }, s)
    else do
      let (es, s) ← s.au16 false
      let (so, s) ← s.au16 false
      let (sb, s) ← s.au64 false
      pure ({ r with ElementSize := some es, SizeOfOuter := some so,
                     SetBitFuncPtr := some sb }, s)
  else if kind = 0x00 ∨ kind = 0x1e then do
    let (ef, s) ← s.au64 false
    pure ({ r with EnumFuncPtr := some ef }, s)
  else if kind = 0x11 then do
    if tupLt v [5, 1] then do
      let (mc, s) ← s.au64 false
      let (cf, s) ← s.au64 false
      pure ({ r with MetaClassFuncPtr := some mc, ClassFuncPtr := some cf }, s)
    else do
      let (cf, s) ← s.au64 false
      let (mc, s) ← s.au64 false
      pure ({ r with ClassFuncPtr := some cf, MetaClassFuncPtr := some mc }, s)
  else if kind = 0x1a then do
    let (sf, s) ← s.au64 false
    pure ({ r with SignatureFunctionFuncPtr := some sf }, s)
  else if kind = 0x1f then do
    let (pc, s) ← s.au64 false
    pure ({ r with PropertyClassFuncPtr := some pc }, s)
  else if kind = 0x13 then do
    let (ic, s) ← s.au64 false
    pure ({ r with InterfaceClassFuncPtr := some ic }, s)
  else if kind = 0x17 then do
    let (mf, s) ← if tupLt v [5, 3] then s.au32 false else s.u8 false
    if mf &&& 1 = mf then pure ({ r with MapFlags := some mf }, s) else none
  else if kind = 0x1b ∨ kind = 0x1c then do
    let (sf, s) ← s.au64 false
    pure ({ r with SignatureFunctionFuncPtr := some sf }, s)
  else if kind = 0x12 ∨ kind = 0x0e ∨ kind = 0x0f ∨ kind = 0x10 then do
    let (cf, s) ← s.au64 false
    pure ({ r with ClassFuncPtr := some cf }, s)
  else if kind = 0x0d then do
    let (mc, s) ← s.au64 false
    pure ({ r with MetaClassFuncPtr := some mc }, s)
  else if kind = 0x19 then do
    let (ss, s) ← s.au64 false
    pure ({ r with ScriptStructFuncPtr := some ss }, s)
  else
    pure (r, s)

/-- Version-independent prefix of `PropertyParams.deserialize`: wrap the
stream auto-aligned, read `NameUTF8_ptr`, `RepNotifyFuncUTF8_ptr`,
`PropertyFlags` (u64 each, guarded by the `STRICT` `EPropertyFlags` bits),
`FlagsAndType` (u32, guarded by the `STRICT` `EPropertyGenFlags` low six
bits) and `ObjectFlags` (u32). -/
def PropertyParams.readPrefix (s0 : MemoryStream) :
    Option ((Nat × Nat × Nat × Nat × Nat) × MemoryStream) := do
  let s := s0.autoAligned
  let (nameP, s) ← s.au64 false
  let (repP, s) ← s.au64 false
  let (propFlags, s) ← s.au64 false
  if propFlags &&& epropertyFlagsMask = propFlags then do
    let (flagsFull, s) ← s.au32 false
    if flagsFull % 64 ≤ 0x20 then do
      let (objFlags, s) ← s.au32 false
      pure ((nameP, repP, propFlags, flagsFull, objFlags), s)
    else none
  else none

/-- Version-sensitive middle of `PropertyParams.deserialize`:
`ArrayDim:i32` here when `v < (5,3)`; setter/getter `u64` pair from
`(5,1)`; `ArrayDim:u16` here when `v ≥ (5,3)`; then `Offset` (`u32` below
`(5,3)`, else `u16`) for every kind except `Bool`. -/
def PropertyParams.readMiddle (v : List Nat) (kind : Nat) (s0 : MemoryStream) :
    Option ((Int × Option Nat × Option Nat × Option Nat) × MemoryStream) := do
  let (arrayDimPre, s) ← if tupLt v [5, 3] then do
      let (x, s) ← s0.as32 false
      pure ((x : Int), s)
    else pure ((0 : Int), s0)
  let (setterP, getterP, s) ← if !tupLt v [5, 1] then do
      let (a, s) ← s.au64 false
      let (b, s) ← s.au64 false
      pure ((some a : Option Nat), (some b : Option Nat), s)
    else pure ((none : Option Nat), (none : Option Nat), s)
  let (arrayDim, s) ← if !tupLt v [5, 3] then do
      let (x, s) ← s.au16 false
      pure ((x : Int), s)
    else pure (arrayDimPre, s)
  let (offset, s) ← if kind ≠ kindBool then do
      let (x, s) ← if tupLt v [5, 3] then s.au32 false else s.au16 false
      pure ((some x : Option Nat), s)
    else pure ((none : Option Nat), s)
  pure ((arrayDim, setterP, getterP, offset), s)

/-- Embedding of `PropertyParams.deserialize`: prefix, version-sensitive
middle, kind-specific tail.  `none` models any raised exception (short
read or a `STRICT` flag enumeration rejecting undefined bits). -/
def PropertyParams.deserialize (v : List Nat) (s0 : MemoryStream) :
    Option (PropertyParams × MemoryStream) := do
  let ((nameP, repP, propFlags, flagsFull, objFlags), s) ← readPrefix s0
  let kind := flagsFull % 64
  let ((arrayDim, setterP, getterP, offset), s) ← readMiddle v kind s
  let r : PropertyParams :=
    ⟨nameP, repP, propFlags, flagsFull, objFlags, arrayDim, setterP,
      getterP, offset, none, none, none, none, none, none, none, none,
      none, none, none, none⟩
  propertyTail v kind r s

/-- Specification-side middle for versions below `(5,1)` (claim C5):
`ArrayDim` as a signed 32-bit value, no setter/getter pair, `Offset` as
`u32` for every kind except `Bool`. -/
def PropertyParams.midPre51 (kind : Nat) (s0 : MemoryStream) :
    Option ((Int × Option Nat × Option Nat × Option Nat) × MemoryStream) := do
  let (arrayDim, s) ← s0.as32 false
  let (offset, s) ← if kind ≠ kindBool then do
      let (x, s) ← s.au32 false
      pure ((some x : Option Nat), s)
    else pure ((none : Option Nat), s)
  pure (((arrayDim : Int), (none : Option Nat), (none : Option Nat), offset), s)

/-- Specification-side middle for versions in `[(5,1), (5,3))` (claim C5):
`ArrayDim` as a signed 32-bit value read *before* the setter/getter
pointer pair, `Offset` as `u32` for every kind except `Bool`. -/
def PropertyParams.mid51 (kind : Nat) (s0 : MemoryStream) :
    Option ((Int × Option Nat × Option Nat × Option Nat) × MemoryStream) := do
  let (arrayDim, s) ← s0.as32 false
  let (setterP, s) ← s.au64 false
  let (getterP, s) ← s.au64 false
  let (offset, s) ← if kind ≠ kindBool then do
      let (x, s) ← s.au32 false
      pure ((some x : Option Nat), s)
    else pure ((none : Option Nat), s)
  pure (((arrayDim : Int), some setterP, some getterP, offset), s)

/-- Specification-side middle for versions at or above `(5,3)` (claim C5):
`ArrayDim` as an unsigned 16-bit value read *after* the setter/getter
pointer pair, `Offset` as `u16` for every kind except `Bool`. -/
def PropertyParams.mid53 (kind : Nat) (s0 : MemoryStream) :
    Option ((Int × Option Nat × Option Nat × Option Nat) × MemoryStream) := do
  let (setterP, s) ← s0.au64 false
  let (getterP, s) ← s.au64 false
  let (arrayDim, s) ← s.au16 false
  let (offset, s) ← if kind ≠ kindBool then do
      let (x, s) ← s.au16 false
      pure ((some x : Option Nat), s)
    else pure ((none : Option Nat), s)
  pure (((arrayDim : Int), some setterP, some getterP, offset), s)

/-- Specification-side reader for versions below `(5,1)` (claim C5):
the common prefix, the `midPre51` middle, the common tail. -/
def PropertyParams.readPre51 (v : List Nat) (s0 : MemoryStream) :
    Option (PropertyParams × MemoryStream) := do
  let ((nameP, repP, propFlags, flagsFull, objFlags), s) ← readPrefix s0
  let kind := flagsFull % 64
  let ((arrayDim, setterP, getterP, offset), s) ← midPre51 kind s
  let r : PropertyParams :=
    ⟨nameP, repP, propFlags, flagsFull, objFlags, arrayDim, setterP,
      getterP, offset, none, none, none, none, none, none, none, none,
      none, none, none, none⟩
  propertyTail v kind r s

/-- Specification-side reader for versions in `[(5,1), (5,3))` (claim C5):
the common prefix, the `mid51` middle, the common tail. -/
def PropertyParams.read51 (v : List Nat) (s0 : MemoryStream) :
    Option (PropertyParams × MemoryStream) := do
  let ((nameP, repP, propFlags, flagsFull, objFlags), s) ← readPrefix s0
  let kind := flagsFull % 64
  let ((arrayDim, setterP, getterP, offset), s) ← mid51 kind s
  let r : PropertyParams :=
    ⟨nameP, repP, propFlags, flagsFull, objFlags, arrayDim, setterP,
      getterP, offset, none, none, none, none, none, none, none, none,
      none, none, none, none⟩
  propertyTail v kind r s

/-- Specification-side reader for versions at or above `(5,3)` (claim C5):
the common prefix, the `mid53` middle, the common tail. -/
def PropertyParams.read53 (v : List Nat) (s0 : MemoryStream) :
    Option (PropertyParams × MemoryStream) := do
  let ((nameP, repP, propFlags, flagsFull, objFlags), s) ← readPrefix s0
  let kind := flagsFull % 64
  let ((arrayDim, setterP, getterP, offset), s) ← mid53 kind s
  let r : PropertyParams :=
    ⟨nameP, repP, propFlags, flagsFull, objFlags, arrayDim, setterP,
      getterP, offset, none, none, none, none, none, none, none, none,
      none, none, none, none⟩
  propertyTail v kind r s

/-! ## Association-list helpers

Python `dict` semantics used throughout the source: insertion order is
preserved, assignment to an existing key replaces the value in place,
deletion removes the key.
-/

/-- First value stored under `k` (`dict.get`). -/
def lookupA {K V : Type} [DecidableEq K] : List (K × V) → K → Option V
  | [], _ => none
  | (k', v) :: rest, k => if k = k' then some v else lookupA rest k

/-- Assignment `d[k] = v`: replace in place if present, else append. -/
def setA {K V : Type} [DecidableEq K] : List (K × V) → K → V → List (K × V)
  | [], k, v => [(k, v)]
  | (k', v') :: rest, k, v =>
    if k = k' then (k, v) :: rest else (k', v') :: setA rest k v

/-- Deletion `del d[k]`: drop the first entry with key `k`. -/
def eraseA {K V : Type} [DecidableEq K] : List (K × V) → K → List (K × V)
  | [], _ => []
  | (k', v') :: rest, k => if k = k' then rest else (k', v') :: eraseA rest k

/-! ## Image and sections (`lieftools.py`)

Only what the seed classification needs: the image base, the ordered
section table and RVA lookups.  Section names are an inductive type
(`SECTION_TEXT`/`SECTION_RDATA` plus anything else).
-/

inductive SectionName where
  | text
  | rdata
  | other
deriving Repr, DecidableEq

instance {e a : Type} [DecidableEq e] [DecidableEq a] : DecidableEq (Except e a) :=
  fun x y =>
    match x, y with
    | .ok u, .ok w =>
      if h : u = w then isTrue (by rw [h]) else isFalse (by intro hc; cases hc; exact h rfl)
    | .error u, .error w =>
      if h : u = w then isTrue (by rw [h]) else isFalse (by intro hc; cases hc; exact h rfl)
    | .ok _, .error _ => isFalse (by intro hc; cases hc)
    | .error _, .ok _ => isFalse (by intro hc; cases hc)

structure PESection where
  name : SectionName
  virtualAddress : Nat
  size : Nat
  content : List Nat
deriving Repr, DecidableEq

structure Image where
  imagebase : Nat
  sections : List PESection
deriving Repr, DecidableEq

namespace Image

/-- Embedding of `get_section_name_from_rva`: an RVA below the image base
returns `None` (`ok none`); otherwise the first section whose span contains
`rva - imagebase` gives its name (`ok (some name)`); otherwise the method
raises `ValueError` (`error`). -/
def getSectionNameFromRva (img : Image) (rva : Nat) : Except Unit (Option SectionName) :=
  if rva < img.imagebase then .ok none
  else
    match img.sections.find? (fun sec =>
        sec.virtualAddress ≤ rva - img.imagebase ∧
        rva - img.imagebase < sec.virtualAddress + sec.size) with
    | some sec => .ok (some sec.name)
    | none => .error ()

/-- Embedding of `get_section_memory_from_rva` + `get_stream`: a strict
(`verify_alignment=True`) stream over the containing section, positioned at
`rva`; `none` models the `ValueError` for an RVA outside every section. -/
def getStream (img : Image) (rva : Nat) : Option MemoryStream :=
  match img.sections.find? (fun sec =>
      sec.virtualAddress ≤ rva - img.imagebase ∧
      rva - img.imagebase < sec.virtualAddress + sec.size) with
  | some sec =>
    let sectionBase := img.imagebase + sec.virtualAddress
    some ⟨sec.content, sectionBase, rva - sectionBase, true⟩
  | none => none

/-- Convenience used by the validators: the section of `rva` is `name` and
the lookup neither raised nor fell below the image base. -/
def sectionIs (img : Image) (rva : Nat) (name : SectionName) : Bool :=
  decide (img.getSectionNameFromRva rva = .ok (some name))

end Image

/-! ## Fixed record layouts (`ue/native_structs.py`, `struct.py`)

`dataclasses_struct` with `LITTLE_ENDIAN` packs fields without padding, so
a record parses from exactly `get_struct_size` bytes: `struct_from_stream`
slices that many bytes off the stream (Python slicing clamps) and
`from_packed` fails unless the slice has the exact length.
-/

structure FPackageParams where
  NameUTF8 : Nat
  SingletonFuncArrayFn : Nat
  NumSingletons : Int
  PackageFlags : Nat
  BodyCRC : Nat
  DeclarationsCRC : Nat
deriving Repr, DecidableEq

structure FClassParams where
  ClassNoRegisterFunc : Nat
  ClassConfigNameUTF8 : Nat
  CppClassInfo : Nat
  DependencySingletonFuncArray : Nat
  FunctionLinkArray : Nat
  PropertyArray : Nat
  ImplementedInterfaceArray : Nat
  NumDependencySingletons : Int
  NumFunctions : Int
  NumProperties : Int
  NumImplementedInterfaces : Int
  ClassFlags : Nat
deriving Repr, DecidableEq

structure FStructParams where
  OuterFunc : Nat
  SuperFunc : Nat
  StructOpsFunc : Nat
  NameUTF8 : Nat
  SizeOf : Nat
  AlignOf : Nat
  PropertyArray : Nat
  NumProperties : Int
  ObjectFlags : Nat
  StructFlags : Nat
deriving Repr, DecidableEq

structure FEnumParams where
  OuterFunc : Nat
  DisplayNameFn : Nat
  NameUTF8 : Nat
  CppTypeUTF8 : Nat
  EnumeratorParams : Nat
  NumEnumerators : Int
  ObjectFlags : Nat
  EnumFlags : Nat
  CppForm : Nat
deriving Repr, DecidableEq

structure FFunctionParams where
  OuterFunc : Nat
  SuperFunc : Nat
  NameUTF8 : Nat
  OwningClassName : Nat
  DelegateName : Nat
  StructureSize : Nat
  PropertyArray : Nat
  NumProperties : Int
  ObjectFlags : Nat
  FunctionFlags : Nat
  RPCId : Nat
  RPCResponseId : Nat
deriving Repr, DecidableEq

/-- Candidate record layouts tried by the seed classification, in the
iteration order of `VALIDATION_FNS`. -/
inductive RecordType where
  | packageParams
  | classParams
  | structParams
  | enumParams
  | functionParams
deriving Repr, DecidableEq

/-- Parsed candidate record. -/
inductive ParsedRecord where
  | package (p : FPackageParams)
  | cls (p : FClassParams)
  | strct (p : FStructParams)
  | enm (p : FEnumParams)
  | func (p : FFunctionParams)
deriving Repr, DecidableEq

/-- Packed size of each candidate (`get_struct_size` on the `<`-packed
dataclass: 32, 76, 68, 53 and 72 bytes). -/
def RecordType.structSize : RecordType → Nat
  | .packageParams => 32
  | .classParams => 76
  | .structParams => 68
  | .enumParams => 53
  | .functionParams => 72

/-- Unpack a candidate record from exactly `structSize` bytes
(`cls.from_packed(data)` after `data = stream.bytes(size)`). -/
def parseRecord (rt : RecordType) (data : List Nat) : Option ParsedRecord :=
  let u := fun p size => MemoryStream.leVal data p size
  let i32 := fun p => MemoryStream.toSigned 4 (MemoryStream.leVal data p 4)
  if data.length = rt.structSize then
    match rt with
    | .packageParams =>
      some (.package ⟨u 0 8, u 8 8, i32 16, u 20 4, u 24 4, u 28 4⟩)
    | .classParams =>
      some (.cls ⟨u 0 8, u 8 8, u 16 8, u 24 8, u 32 8, u 40 8, u 48 8,
        i32 56, i32 60, i32 64, i32 68, u 72 4⟩)
    | .structParams =>
      some (.strct ⟨u 0 8, u 8 8, u 16 8, u 24 8, u 32 8, u 40 8, u 48 8,
        i32 56, u 60 4, u 64 4⟩)
    | .enumParams =>
      some (.enm ⟨u 0 8, u 8 8, u 16 8, u 24 8, u 32 8, i32 40, u 44 4,
        u 48 4, u 52 1⟩)
    | .functionParams =>
      some (.func ⟨u 0 8, u 8 8, u 16 8, u 24 8, u 32 8, u 40 8, u 48 8,
        i32 56, u 60 4, u 64 4, u 68 2, u 70 2⟩)
  else none

/-- Embedding of `struct_from_stream` for the fixed candidate layouts (the
intended three-argument call: slice `structSize` bytes at the stream
position and unpack). -/
def structFromStream (rt : RecordType) (s : MemoryStream) : Option ParsedRecord :=
  parseRecord rt ((s.memory.drop s.pos).take rt.structSize)

/-- Embedding of the five `_validate_*_params` functions in
`ue/z_construct.py`.  Each `assert` that fails — including a section lookup
that raises — makes the candidate invalid (the caller catches every
exception). -/
def validateRecord (img : Image) : ParsedRecord → Bool
  | .package p =>
    img.sectionIs p.NameUTF8 .rdata &&
    decide (0 ≤ p.NumSingletons) && decide (p.NumSingletons ≤ 0x2000) &&
    (if 0 < p.NumSingletons then img.sectionIs p.SingletonFuncArrayFn .rdata else true)
  | .cls p =>
    img.sectionIs p.ClassNoRegisterFunc .text &&
    img.sectionIs p.CppClassInfo .rdata &&
    (if p.ClassConfigNameUTF8 ≠ 0 then img.sectionIs p.ClassConfigNameUTF8 .rdata else true) &&
    decide (0 ≤ p.NumFunctions) && decide (p.NumFunctions ≤ 0x2000) &&
    decide (0 ≤ p.NumProperties) && decide (p.NumProperties ≤ 0x2000) &&
    decide (0 ≤ p.NumDependencySingletons) &&
    decide (p.NumDependencySingletons ≤ 0x2000) &&
    (if 0 < p.NumFunctions then img.sectionIs p.FunctionLinkArray .rdata else true) &&
    (if 0 < p.NumProperties then img.sectionIs p.PropertyArray .rdata else true) &&
    (if 0 < p.NumDependencySingletons then
      img.sectionIs p.DependencySingletonFuncArray .rdata else true)
  | .strct p =>
    (if p.OuterFunc ≠ 0 then img.sectionIs p.OuterFunc .text else true) &&
    (if p.SuperFunc ≠ 0 then img.sectionIs p.SuperFunc .text else true) &&
    (if p.StructOpsFunc ≠ 0 then img.sectionIs p.StructOpsFunc .text else true) &&
    img.sectionIs p.NameUTF8 .rdata &&
    decide (0 ≤ p.NumProperties) && decide (p.NumProperties ≤ 0x2000) &&
    (if 0 < p.NumProperties then img.sectionIs p.PropertyArray .rdata else true) &&
    decide (p.SizeOf ≤ 0x1000000) && decide (p.AlignOf ≤ 4096)
  | .enm p =>
    (if p.OuterFunc ≠ 0 then img.sectionIs p.OuterFunc .text else true) &&
    (if p.DisplayNameFn ≠ 0 then img.sectionIs p.DisplayNameFn .text else true) &&
    img.sectionIs p.NameUTF8 .rdata &&
    img.sectionIs p.CppTypeUTF8 .rdata &&
    decide (0 ≤ p.NumEnumerators) && decide (p.NumEnumerators ≤ 0x2000) &&
    (if 0 < p.NumEnumerators then img.sectionIs p.EnumeratorParams .rdata else true)
  | .func p =>
    (if p.OuterFunc ≠ 0 then img.sectionIs p.OuterFunc .text else true) &&
    (if p.SuperFunc ≠ 0 then img.sectionIs p.SuperFunc .text else true) &&
    img.sectionIs p.NameUTF8 .rdata &&
    (if p.OwningClassName ≠ 0 then img.sectionIs p.OwningClassName .rdata else true) &&
    (if p.DelegateName ≠ 0 then img.sectionIs p.DelegateName .rdata else true) &&
    decide (p.StructureSize ≤ 0x1000000) &&
    decide (0 ≤ p.NumProperties) && decide (p.NumProperties ≤ 0x2000) &&
    (if 0 < p.NumProperties then img.sectionIs p.PropertyArray .rdata else true)

/-- Candidate order of the `VALIDATION_FNS` dictionary. -/
def validationOrder : List RecordType :=
  [.packageParams, .classParams, .structParams, .enumParams, .functionParams]

/-- Embedding of `_guess_possible_struct_types` exactly as written: the
initial `image.get_stream(addr)` is outside any `try` and propagates
(`error`).  Inside the loop the candidate parse is
`struct_from_stream(struct_type, stream)` — the call omits the required
`ctx` parameter of `struct_from_stream(cls, stream, ctx)` (`struct.py:50`),
so Python raises `TypeError` before entering the function; the blanket
`except Exception` turns this into `struct = None` and the candidate is
skipped.  The validator call is therefore unreachable and the generator
yields nothing for every address. -/
def guessPossibleStructTypes (img : Image) (addr : Nat) :
    Except Unit (List RecordType) :=
  match img.getStream addr with
  | none => .error ()
  | some _ =>
    .ok (validationOrder.filterMap (fun rt =>
      let struct : Option ParsedRecord := none
      match struct with
      | none => none
      | some st => if validateRecord img st then some rt else none))

/-- Intended behaviour of `_guess_possible_struct_types`, with the `ctx`
argument supplied (it is unused for the fixed candidate layouts): a
candidate is yielded when it parses from the address and its validator
passes. -/
def guessPossibleStructTypesIntended (img : Image) (addr : Nat) :
    Except Unit (List RecordType) :=
  match img.getStream addr with
  | none => .error ()
  | some stream =>
    .ok (validationOrder.filterMap (fun rt =>
      match structFromStream rt stream with
      | none => none
      | some st => if validateRecord img st then some rt else none))

/-- Inner loop of `_categorize_z_construct_calls`: walk the group's callers
and stop at the first whose guessed candidate list has exactly one entry. -/
def firstUniqueGuess (img : Image) : List Nat → Except Unit (Option RecordType)
  | [] => .ok none
  | caller :: rest => do
    let types ← guessPossibleStructTypes img caller
    match types with
    | [rt] => .ok (some rt)
    | _ => firstUniqueGuess img rest

/-- Embedding of `_categorize_z_construct_calls`: each group (constructor
RVA with its callers' params-record RVAs) is assigned the record type of
the first caller with a unique guess; groups without one are skipped. -/
def categorizeZConstructCalls (img : Image) (groups : List (Nat × List Nat)) :
    Except Unit (List (RecordType × Nat)) :=
  groups.foldlM (fun acc g => do
    match ← firstUniqueGuess img g.2 with
    | some rt => pure (setA acc rt g.1)
    | none => pure acc) []

/-- Failing input for claim C3: image base 4096; `.text` covers RVAs
4096–4351, `.rdata` covers 4352–4415 and holds a valid `FPackageParams`
record at 4352 whose `NameUTF8` points back at 4352 (inside `.rdata`) with
`NumSingletons = 0`. -/
def c3Image : Image :=
  ⟨4096,
    [⟨.text, 0, 256, List.replicate 256 0⟩,
     ⟨.rdata, 256, 64, [0x00, 0x11, 0, 0, 0, 0, 0, 0] ++ List.replicate 56 0⟩]⟩

/-! ## Disassembler helpers (`dissassembly.py`)

Instructions are modelled post-decode: each carries the iced-x86 fields the
helpers actually consult (`code`, `ip`, `len`, `memory_displacement`,
`used_memory()[0]`'s base and displacements, `used_registers()`, the
immediates).  The `CodeGrabber` is an instruction memory addressed by `ip`
plus a cursor; `next` fails (`StopIteration`) past the decoded window, and
`jump` repositions the cursor.  Every helper returns the cursor both on
success and on failure, since Python exceptions leave the grabber wherever
it had advanced to.
-/

inductive Reg where
  | RAX | RCX | RDX | RBX | RSP | RBP | RSI | RDI
  | R8 | R9 | R10 | R11 | otherReg
deriving Repr, DecidableEq

/-- Membership and position in `ARG_REGS = [RCX, RDX, R8, R9]`. -/
def argRegIndex : Reg → Option Nat
  | .RCX => some 0
  | .RDX => some 1
  | .R8 => some 2
  | .R9 => some 3
  | _ => none

inductive ICode where
  | CALL_REL32_64 | MOV_R64_RM64 | TEST_RM64_R64 | JNE_REL8_64 | JNE_REL32_64
  | CMP_RM64_IMM8 | LEA_R64_M | MOV_RM64_IMM32 | MOV_RM32_IMM32 | MOV_RM64_R64
  | MOV_R64_IMM64 | ADD_RM64_IMM8 | RETNQ | JMP_REL32_64 | SUB_RM64_IMM8
  | SUB_RM64_IMM32 | PUSH_R64 | MOV_R32_IMM32 | SUB_R64_RM64 | otherCode
deriving Repr, DecidableEq

structure Instr where
  code : ICode
  ip : Nat
  length : Nat
  memDisp : Nat
  memDispU : Nat
  memDispI : Int
  memBase : Reg
  usedRegs : List Reg
  memDisplSize : Nat
  imm8 : Nat
  imm32 : Nat
  imm1 : Nat
deriving Repr, DecidableEq

structure CodeGrabber where
  prog : List Instr
  ip : Nat
deriving Repr, DecidableEq

inductive PErr where
  | assertFail
  | unexpectedInstruction
  | stopIteration
  | valueError
  | typeError
  | indexError
  | fuelOut
deriving Repr, DecidableEq

/-- Error payload of the disassembler helpers: exception kind plus the
cursor where it was raised. -/
abbrev DErr := PErr × CodeGrabber

namespace CodeGrabber

/-- Instruction currently under the cursor. -/
def fetch (c : CodeGrabber) : Option Instr := c.prog.find? (fun i => i.ip = c.ip)

/-- Embedding of `next_inst`/`next_info`: decode the instruction at the
cursor and advance past it; `StopIteration` past the window. -/
def nextInst (c : CodeGrabber) : Except DErr (Instr × CodeGrabber) :=
  match c.fetch with
  | some i => .ok (i, { c with ip := c.ip + i.length })
  | none => .error (.stopIteration, c)

/-- Embedding of `jump`. -/
def jump (c : CodeGrabber) (addr : Nat) : CodeGrabber := { c with ip := addr }

end CodeGrabber

/-- Failed `assert` (AssertionError). -/
def assertTrue (b : Bool) (c : CodeGrabber) : Except (PErr × CodeGrabber) Unit :=
  if b then .ok () else .error (.assertFail, c)

/-- Access `used_registers()[i].register`; Python raises `IndexError` when
the list is too short. -/
def getReg (l : List Reg) (i : Nat) (c : CodeGrabber) : Except (PErr × CodeGrabber) Reg :=
  match l.get? i with
  | some r => .ok r
  | none => .error (.indexError, c)

/-- Embedding of `parse_fn_prelude`: an optional `MOV R11, RSP` recording
the stack-save register, then `SUB RSP, imm8/imm32` recording the stack
size; anything else raises `UnexpectedInstruction`. -/
def parseFnPrelude (c : CodeGrabber) : Except DErr ((Nat × Option Reg) × CodeGrabber) := do
  let (inst, c) ← c.nextInst
  let (stackSaveReg, inst, c) ←
    if inst.code = .MOV_R64_RM64 then do
      let r1 ← getReg inst.usedRegs 1 c
      assertTrue (r1 = .RSP) c
      let r0 ← getReg inst.usedRegs 0 c
      let (inst', c') ← c.nextInst
      pure ((some r0 : Option Reg), inst', c')
    else
      pure ((none : Option Reg), inst, c)
  if inst.code = .SUB_RM64_IMM8 then do
    let r0 ← getReg inst.usedRegs 0 c
    assertTrue (r0 = .RSP) c
    .ok ((inst.imm8, stackSaveReg), c)
  else if inst.code = .SUB_RM64_IMM32 then do
    let r0 ← getReg inst.usedRegs 0 c
    assertTrue (r0 = .RSP) c
    .ok ((inst.imm32, stackSaveReg), c)
  else
    .error (.unexpectedInstruction, c)

/-- Register file initialisation of `gather_call_params`: `defaultdict(0)`,
`RSP` at the fake stack bottom, and the stack-save register (when noted) at
the fake stack top. -/
def initRegs (stackSize : Nat) (stackSaveReg : Option Reg) : Reg → Nat :=
  let base := fun r => if r = Reg.RSP then 0x1000000000000000 else 0
  match stackSaveReg with
  | some sr => fun r => if r = sr then 0x1000000000000000 + stackSize else base r
  | none => base

/-- Argument-marshalling triples: `(value, size, slot)` as appended to
`parameters` by `gather_call_params`. -/
abbrev ArgTriple := Nat × Nat × Int

/-- Update a register file. -/
def setReg (regs : Reg → Nat) (r : Reg) (v : Nat) : Reg → Nat :=
  fun r' => if r' = r then v else regs r'

/-- Main loop of `gather_call_params`: consume marshalling instructions,
appending `(value, size, slot)` triples, until the terminating
`CALL rel32`; any unrecognised instruction raises `AssertionError`. -/
def gatherLoop : Nat → CodeGrabber → Nat → (Reg → Nat) → List ArgTriple →
    Except DErr ((Nat × List ArgTriple) × CodeGrabber)
  | 0, c, _, _, _ => .error (.fuelOut, c)
  | fuel + 1, c, stackSize, regs, params => do
    let (inst, c) ← c.nextInst
    if inst.code = .CALL_REL32_64 then
      .ok ((inst.memDisp, params), c)
    else if inst.code = .LEA_R64_M then do
      let value := inst.memDisp
      let size := inst.memDisplSize
      let reg ← getReg inst.usedRegs 0 c
      let regs := setReg regs reg value
      match argRegIndex reg with
      | some idx =>
        gatherLoop fuel c stackSize regs
          (params ++ [(value, size, (0xFFFF - idx : Int))])
      | none => do
        assertTrue (reg = .RAX) c
        let (inst2, c) ← c.nextInst
        assertTrue (inst2.code = .MOV_RM64_R64) c
        assertTrue (inst2.memBase = .R11) c
        let r1 ← getReg inst2.usedRegs 1 c
        assertTrue (r1 = .RAX) c
        gatherLoop fuel c stackSize regs (params ++ [(value, size, -inst2.memDispI)])
    else if inst.code = .MOV_RM64_IMM32 then do
      assertTrue (inst.memBase = .R11) c
      gatherLoop fuel c stackSize regs (params ++ [(inst.imm1, 8, -inst.memDispI)])
    else if inst.code = .MOV_RM32_IMM32 then do
      let offset ←
        if inst.memBase = .R11 then
          pure (-(inst.memDispU : Int))
        else if inst.memBase = .RSP then
          pure ((stackSize : Int) - (inst.memDispU : Int))
        else
          .error (.assertFail, c)
      gatherLoop fuel c stackSize regs (params ++ [(inst.imm32, 4, offset)])
    else if inst.code = .MOV_RM64_R64 then do
      let offset ←
        if inst.memBase = .R11 then
          pure (-inst.memDispI)
        else if inst.memBase = .RSP then
          pure ((stackSize : Int) - inst.memDispI)
        else
          .error (.assertFail, c)
      let r1 ← getReg inst.usedRegs 1 c
      gatherLoop fuel c stackSize regs (params ++ [(regs r1, 8, offset)])
    else if inst.code = .MOV_R64_IMM64 then do
      let reg ← getReg inst.usedRegs 0 c
      match argRegIndex reg with
      | some idx =>
        gatherLoop fuel c stackSize regs
          (params ++ [(inst.imm1, 8, (0xFFFF - idx : Int))])
      | none =>
        gatherLoop fuel c stackSize (setReg regs reg inst.imm1) params
    else
      .error (.assertFail, c)

/-- Stable descending slot order used to model
`parameters.sort(key=lambda x: x[2], reverse=True)` (Python's sort is
stable; insertion sort with this relation is the same stable descending
sort). -/
def slotGE (a b : ArgTriple) : Prop := b.2.2 ≤ a.2.2

instance : DecidableRel slotGE := fun a b => inferInstanceAs (Decidable (b.2.2 ≤ a.2.2))

/-- Embedding of `gather_call_params`: run the marshalling loop, sort the
collected triples by descending slot, drop negative slots, and return the
values in that order together with the call target. -/
def gatherCallParams (fuel : Nat) (c : CodeGrabber) (stackSize : Nat)
    (stackSaveReg : Option Reg) : Except DErr ((Nat × List Nat) × CodeGrabber) := do
  let ((fn, params), c) ←
    gatherLoop fuel c stackSize (initRegs stackSize stackSaveReg) []
  let sorted := params.insertionSort slotGE
  .ok ((fn, (sorted.filter (fun p => 0 ≤ p.2.2)).map (·.1)), c)

/-- Result record of `parse_cached_call` (`CachedCallResult`). -/
structure CachedCallResult where
  cacheAddr : Nat
  calledFnAddr : Nat
  parameters : List Nat
deriving Repr, DecidableEq

/-- Cache-apparatus recognition inside `parse_cached_call` (form 1
`MOV RAX,[cache]; TEST RAX,RAX; JNE ret` or form 2 `CMP [cache],0; JNZ
ret`); returns the cache variable, the form number and the return label.
Any other instruction raises `AssertionError`
(`Unexpected instruction when parsing cached call`). -/
def parseCacheApparatus (inst : Instr) (c : CodeGrabber) :
    Except DErr ((Nat × Nat × Nat) × CodeGrabber) :=
  if inst.code = .MOV_R64_RM64 then do
    let (i2, c) ← c.nextInst
    assertTrue (i2.code = .TEST_RM64_R64) c
    let (i3, c) ← c.nextInst
    assertTrue (i3.code = .JNE_REL8_64 ∨ i3.code = .JNE_REL32_64) c
    .ok ((inst.memDisp, 1, i3.memDisp), c)
  else if inst.code = .CMP_RM64_IMM8 then do
    let (i2, c) ← c.nextInst
    assertTrue (i2.code = .JNE_REL8_64 ∨ i2.code = .JNE_REL32_64) c
    .ok ((inst.memDisp, 2, i2.memDisp), c)
  else
    .error (.assertFail, c)

/-- Epilogue check of `parse_cached_call` (`MOV RAX,[cache]; ADD RSP, #;
RET` at the return label); any other first instruction is only logged and
the cursor is left after it. -/
def parseCachedEpilogue (cacheVar cacheForm retLabel stackSize : Nat)
    (c : CodeGrabber) : Except DErr (Unit × CodeGrabber) := do
  let (i4, c) ← c.nextInst
  if i4.code = .MOV_R64_RM64 then do
    assertTrue (cacheForm ≠ 2 ∨ i4.ip = retLabel) c
    assertTrue (i4.memDisp = cacheVar) c
    let (i5, c) ← c.nextInst
    assertTrue (cacheForm ≠ 1 ∨ i5.ip = retLabel) c
    assertTrue (i5.code = .ADD_RM64_IMM8) c
    assertTrue (i5.imm8 = stackSize) c
    let (i6, c) ← c.nextInst
    assertTrue (i6.code = .RETNQ) c
    .ok ((), c)
  else
    .ok ((), c)

/-- Embedding of `parse_cached_call`: prelude, cache apparatus, redirect
recursion on an initial `CALL rel32`, the marshalling block, and the
epilogue (a deviation after the cached load is only logged). -/
def parseCachedCall : Nat → CodeGrabber → Except DErr (CachedCallResult × CodeGrabber)
  | 0, c => .error (.fuelOut, c)
  | fuel + 1, c => do
    let ((stackSize, stackSaveReg), c) ← parseFnPrelude c
    let (inst, c) ← c.nextInst
    if inst.code = .CALL_REL32_64 then
      parseCachedCall fuel (c.jump inst.memDisp)
    else do
      let ((cacheVar, cacheForm, retLabel), c) ← parseCacheApparatus inst c
      let ((fnAddr, parameters), c) ← gatherCallParams fuel c stackSize stackSaveReg
      let (_, c) ← parseCachedEpilogue cacheVar cacheForm retLabel stackSize c
      .ok (⟨cacheVar, fnAddr, parameters⟩, c)

/-- Embedding of `parse_trampolines`: follow consecutive `JMP rel32`
instructions, collecting their addresses; stop at the first non-jump,
repositioning the cursor onto it. -/
def parseTrampolines : Nat → CodeGrabber → Except DErr ((List Nat) × CodeGrabber)
  | 0, c => .error (.fuelOut, c)
  | fuel + 1, c => do
    let (inst, c') ← c.nextInst
    if inst.code = .JMP_REL32_64 then do
      let (rest, cFin) ← parseTrampolines fuel (c'.jump inst.memDisp)
      .ok (inst.ip :: rest, cFin)
    else
      .ok ([], c'.jump inst.ip)

/-- Guarded cached-call parse shared by `parse_ZConstruct` and
`parse_ZConstructOrStaticClass`: the `try`/`except` block that turns an
`AssertionError` or unexpected-instruction failure into `parsed = None`
and lets every other exception propagate. -/
def parseCachedCallGuarded (fuel : Nat) (c : CodeGrabber) :
    Except DErr ((Option CachedCallResult) × CodeGrabber) :=
  match parseCachedCall fuel c with
  | .ok (res, c') => .ok (some res, c')
  | .error (.assertFail, c') => .ok (none, c')
  | .error (.unexpectedInstruction, c') => .ok (none, c')
  | .error e => .error e

/-! ## Function parsers (`ue/functions.py`)

The seed-classification caches (`cache_by_fn_addr`,
`cache_by_called_fn_addr`) are passed as explicit finite maps.  The
tolerant parser catches `AssertionError` and the unexpected-instruction
exception from `parse_cached_call` (the source imports that exception
under the name `UnexpectedInstructionError`, while `dissassembly.py`
declares it as `UnexpectedInstruction`; the embedding follows the evident
intent of the `except` clause).  A `ValueError` from the kind cross-check
and the `TypeError` from spreading a wrong-length parameter list into an
artefact constructor are caught nowhere and propagate.
-/

inductive ZConstructFnType where
  | package
  | function
  | enum
  | strct
  | cls
deriving Repr, DecidableEq

inductive ParserTag where
  | parseStaticClassTag
  | parseZConstructTag
  | parseZConstructOrStaticClassTag
deriving Repr, DecidableEq

/-- Artefacts produced by the function parsers (`StaticClassFnArtefact`,
`ZConstructFnArtefact`, `UnparsableFunctionArtefact`,
`TrampolineArtefact`). -/
inductive FnArtefact where
  | trampoline (startAddr endAddr : Nat) (target : FnArtefact)
  | staticClass (startAddr endAddr : Nat) (params : List Nat)
  | zConstruct (startAddr endAddr : Nat) (kind : ZConstructFnType)
      (calledMethodPtr cachePtr paramsStructPtr : Nat)
  | unparsable (startAddr endAddr : Nat) (tag : ParserTag)
deriving Repr, DecidableEq

/-- Is the artefact a `TrampolineArtefact`? -/
def FnArtefact.isTrampoline : FnArtefact → Bool
  | .trampoline _ _ _ => true
  | _ => false

/-- Slot classification used for claim C6: a slot is either a
calling-convention register slot (`0xFFFF - index`, so between `0xFFFC`
and `0xFFFF`) or a stack slot bounded by the stack size. -/
def slotOK (stackSize : Nat) (t : ArgTriple) : Prop :=
  ((0xFFFC : Int) ≤ t.2.2 ∧ t.2.2 ≤ 0xFFFF) ∨ t.2.2 ≤ (stackSize : Int)

instance : IsTotal ArgTriple slotGE := ⟨fun a b => le_total b.2.2 a.2.2⟩

instance : IsTrans ArgTriple slotGE := ⟨fun _ _ _ hab hbc => le_trans hbc hab⟩

/-- Instruction with all optional fields zeroed. -/
def mkInstr (code : ICode) (ip len : Nat) : Instr :=
  ⟨code, ip, len, 0, 0, 0, .otherReg, [], 0, 0, 0, 0⟩

/-- Concrete decoded function used for claim C2: a cached-call body whose
two pointer arguments are marshalled through `RCX`/`RDX` and whose seed
lookups will disagree about the constructor kind. -/
def c2Prog : List Instr :=
  [{ mkInstr .SUB_RM64_IMM8 100 4 with usedRegs := [.RSP], imm8 := 0x28 },
   { mkInstr .MOV_R64_RM64 104 7 with memDisp := 0x2000 },
   mkInstr .TEST_RM64_R64 111 3,
   { mkInstr .JNE_REL8_64 114 2 with memDisp := 200 },
   { mkInstr .LEA_R64_M 116 7 with memDisp := 0x111, memDisplSize := 8, usedRegs := [.RCX] },
   { mkInstr .LEA_R64_M 123 7 with memDisp := 0x222, memDisplSize := 8, usedRegs := [.RDX] },
   { mkInstr .CALL_REL32_64 130 5 with memDisp := 0x5000 },
   mkInstr .RETNQ 135 1]

/-- Concrete decoded function used for claim C9: one leading `JMP rel32`
trampoline, then a cached-call body whose marshalling block is empty. -/
def c9Prog : List Instr :=
  [{ mkInstr .JMP_REL32_64 0 5 with memDisp := 100 },
   { mkInstr .SUB_RM64_IMM8 100 4 with usedRegs := [.RSP], imm8 := 0x28 },
   { mkInstr .MOV_R64_RM64 104 7 with memDisp := 0x2000 },
   mkInstr .TEST_RM64_R64 111 3,
   { mkInstr .JNE_REL8_64 114 2 with memDisp := 200 },
   { mkInstr .CALL_REL32_64 116 5 with memDisp := 0x5000 },
   mkInstr .RETNQ 121 1]

/-- Concrete marshalling block used for claim C6: a stack-slot store
followed by two register arguments emitted out of calling-convention
order. -/
def c6Prog : List Instr :=
  [{ mkInstr .MOV_RM32_IMM32 0 8 with memBase := .RSP, memDispU := 8, imm32 := 7 },
   { mkInstr .LEA_R64_M 8 7 with memDisp := 0x500, memDisplSize := 8, usedRegs := [.RDX] },
   { mkInstr .LEA_R64_M 15 7 with memDisp := 0x600, memDisplSize := 8, usedRegs := [.RCX] },
   { mkInstr .CALL_REL32_64 22 5 with memDisp := 0x999 }]

/-- Embedding of `parse_StaticClass`: trampolines, cached call (no
exception handling at all), then
`StaticClassFnArtefact(start, end, parse_StaticClass, *parameters)` — the
spread raises `TypeError` unless exactly 14 arguments were recovered. -/
def parseStaticClass (fuel : Nat) (c : CodeGrabber) :
    Except DErr (List FnArtefact × CodeGrabber) := do
  let (jumps, c) ← parseTrampolines fuel c
  let startAddr := c.ip
  let (parsed, c) ← parseCachedCall fuel c
  let endAddr := c.ip
  if parsed.parameters.length = 14 then
    let artefact := FnArtefact.staticClass startAddr endAddr parsed.parameters
    .ok (jumps.map (fun j => FnArtefact.trampoline j (j + 5) artefact) ++ [artefact], c)
  else
    .error (.typeError, c)

/-- Embedding of `_generate_artefact_for_ZConstruct`: `none` when either
kind lookup fails; a raised `ValueError` when both kinds are known but
disagree; otherwise the `ZConstructFnArtefact` (the parameter spread needs
exactly two values). -/
def generateArtefactForZConstruct (byFn byCalled : List (Nat × ZConstructFnType))
    (res : CachedCallResult) (startAddr endAddr : Nat) (c : CodeGrabber) :
    Except DErr (Option FnArtefact) :=
  match lookupA byFn startAddr with
  | none => .ok none
  | some structType =>
    match lookupA byCalled res.calledFnAddr with
    | none => .ok none
    | some calledType =>
      if structType ≠ calledType then .error (.valueError, c)
      else
        match res.parameters with
        | [cachePtr, paramsPtr] =>
          .ok (some (.zConstruct startAddr endAddr structType res.calledFnAddr
            cachePtr paramsPtr))
        | _ => .error (.typeError, c)

/-- Embedding of `parse_ZConstructOrStaticClass` (the tolerant parser):
trampolines, a cached-call parse whose `AssertionError` or
unexpected-instruction failure makes `parsed = None`, then dispatch on the
argument count — 2 tries the Z-construct rules, 14 builds a StaticClass
artefact, anything else keeps the `UnparsableFunctionArtefact`. -/
def parseZConstructOrStaticClass (fuel : Nat)
    (byFn byCalled : List (Nat × ZConstructFnType)) (c : CodeGrabber) :
    Except DErr (List FnArtefact × CodeGrabber) := do
  let (jumps, c) ← parseTrampolines fuel c
  let startAddr := c.ip
  let (parsed, c) ← parseCachedCallGuarded fuel c
  let endAddr := c.ip
  let base := FnArtefact.unparsable startAddr endAddr .parseZConstructOrStaticClassTag
  let artefact ←
    match parsed with
    | none => pure base
    | some res =>
      if res.parameters.length = 2 then
        match generateArtefactForZConstruct byFn byCalled res startAddr endAddr c with
        | .ok (some a) => pure a
        | .ok none => pure base
        | .error e => .error e
      else if res.parameters.length = 14 then
        pure (FnArtefact.staticClass startAddr endAddr res.parameters)
      else
        pure base
  .ok (jumps.map (fun j => FnArtefact.trampoline j (j + 5) artefact) ++ [artefact], c)

/-- Embedding of the post-parse block of `parse_ZConstruct` (the strict
parser, functions.py:83-115): the two kind lookups each fall back to
"unparsable" when missing, then the fatal cross-checks — the called
constructor's kind must equal the seed-index kind of the start RVA, and
that kind must equal the hint `info`. -/
def generateArtefactStrict (byFn byCalled : List (Nat × ZConstructFnType))
    (info : Option ZConstructFnType) (parsed0 : Option CachedCallResult)
    (startAddr endAddr : Nat) (c : CodeGrabber) : Except DErr FnArtefact :=
  let knownType := lookupA byFn startAddr
  let parsed1 := if knownType.isNone then none else parsed0
  let calledType :=
    match parsed1 with
    | some res => lookupA byCalled res.calledFnAddr
    | none => none
  let parsed2 := if calledType.isNone then none else parsed1
  match parsed2 with
  | none => .ok (FnArtefact.unparsable startAddr endAddr .parseZConstructTag)
  | some res =>
    if knownType ≠ calledType then .error (.valueError, c)
    else if knownType ≠ info then .error (.valueError, c)
    else
      match knownType, res.parameters with
      | some kt, [cachePtr, paramsPtr] =>
        .ok (FnArtefact.zConstruct startAddr endAddr kt res.calledFnAddr
          cachePtr paramsPtr)
      | some _, _ => .error (.typeError, c)
      | none, _ => .error (.valueError, c)

/-- Embedding of `parse_ZConstruct` proper: trampolines, the guarded
cached-call parse, then the post-parse block above, then the trampoline
artefacts and the main artefact. -/
def parseZConstruct (fuel : Nat) (byFn byCalled : List (Nat × ZConstructFnType))
    (info : Option ZConstructFnType) (c : CodeGrabber) :
    Except DErr (List FnArtefact × CodeGrabber) := do
  let (jumps, c) ← parseTrampolines fuel c
  let startAddr := c.ip
  let (parsed, c) ← parseCachedCallGuarded fuel c
  let endAddr := c.ip
  let artefact ← generateArtefactStrict byFn byCalled info parsed startAddr endAddr c
  .ok (jumps.map (fun j => FnArtefact.trampoline j (j + 5) artefact) ++ [artefact], c)

/-! ## Discovery worklist (`discovery/system.py`, `discovery/core.py`,
`discovery/function.py`)

`DiscoverySystem.pending` and `found` are insertion-ordered dicts, modelled
as assoc lists.  Discoveries and artefacts are identified by codes
(`Nat`); a system instance supplies the ptr of each discovery, the
comparison used to reconcile duplicate pending entries
(`new.compare(pending)`), the sequence a discovery's `perform` yields
(`Sum.inl` a queued discovery, `Sum.inr` a registered artefact) and the
discoveries `_discover` queues for a registered artefact.  The scheduling
policy of `process_one` (Python: the first ready entry of the dict) is a
parameter `pick`, since the order-independence claim quantifies over such
policies; readiness only restricts which entry a policy may return. -/

/-- `DiscoveryComparison`. -/
inductive DCmp where
  | noMatch
  | keep
  | replace
deriving Repr, DecidableEq

/-- A discovery-system instance (the behaviour `process_one` consumes). -/
structure DSys where
  ptrF : Nat → Nat
  cmpF : Nat → Nat → DCmp
  performF : Nat → List (Sum Nat Nat)
  exploreF : Nat → List Nat

/-- Worklist state: `pending` and `found` as in `DiscoverySystem`, plus a
ghost trace of the discoveries processed so far (write-only: no code path
reads it). -/
structure WState where
  pending : List (Nat × Nat)
  found : List (Nat × Nat)
  processed : List Nat
deriving Repr, DecidableEq

/-- The fresh `DiscoverySystem` state. -/
def emptyW : WState := ⟨[], [], []⟩

/-- The two pointer values `queue` drops immediately. -/
def badPtr (p : Nat) : Bool := p = 0 || p = 0xFFFFFFFFFFFFFFFF

/-- Embedding of `DiscoverySystem.queue`: drop null/sentinel ptrs, drop
anything already found, reconcile against a pending duplicate via
`compare` (`NoMatch` raises `ValueError`), else append. -/
def queueD (Y : DSys) (s : WState) (d : Nat) : Except Unit WState :=
  if badPtr (Y.ptrF d) then .ok s
  else if (lookupA s.found (Y.ptrF d)).isSome then .ok s
  else
    match lookupA s.pending (Y.ptrF d) with
    | some prev =>
      match Y.cmpF d prev with
      | .noMatch => .error ()
      | .replace => .ok { s with pending := setA s.pending (Y.ptrF d) d }
      | .keep => .ok s
    | none => .ok { s with pending := s.pending ++ [(Y.ptrF d, d)] }

/-- Queue a list of discoveries in order (the initial seeding, and
`_discover`'s loop over an explorer's output). -/
def queueListD (Y : DSys) : WState → List Nat → Except Unit WState
  | s, [] => .ok s
  | s, d :: ds => do
    let s' ← queueD Y s d
    queueListD Y s' ds

/-- Embedding of `_register_found`: `found[for_discovery.ptr] = thing`. -/
def registerFoundD (s : WState) (ptr a : Nat) : WState :=
  { s with found := setA s.found ptr a }

/-- The loop body of `process_one` over the things `perform` yields:
a `Discovery` is queued, an `Artefact` is registered under the processed
discovery's ptr and then explored for further discoveries. -/
def performFoldD (Y : DSys) (dptr : Nat) : WState → List (Sum Nat Nat) →
    Except Unit WState
  | s, [] => .ok s
  | s, .inl d' :: xs => do
    let s' ← queueD Y s d'
    performFoldD Y dptr s' xs
  | s, .inr a :: xs => do
    let s' ← queueListD Y (registerFoundD s dptr a) (Y.exploreF a)
    performFoldD Y dptr s' xs

/-- Embedding of `process_one` under a scheduling policy `pick`: when the
policy returns a pending entry, remove it and process its `perform`
output; when it returns nothing (no entry ready) the state is
unchanged. -/
def processOneD (Y : DSys) (pick : List (Nat × Nat) → Option (Nat × Nat))
    (s : WState) : Except Unit WState :=
  match pick s.pending with
  | none => .ok s
  | some (p, d) =>
    performFoldD Y p
      { s with pending := eraseA s.pending p, processed := s.processed ++ [d] }
      (Y.performF d)

/-- Embedding of `process_all`: `while self.pending: self.process_one()`,
with fuel standing in for nontermination (a stuck queue — nothing ready —
spins forever in Python and exhausts the fuel here). -/
def runW (Y : DSys) (pick : List (Nat × Nat) → Option (Nat × Nat)) :
    Nat → WState → Except Unit WState
  | 0, s => if s.pending = [] then .ok s else .error ()
  | fuel + 1, s =>
    if s.pending = [] then .ok s
    else do
      let s' ← processOneD Y pick s
      runW Y pick fuel s'

/-- Most-recently-queued-first scheduling. -/
def pickLastD : List (Nat × Nat) → Option (Nat × Nat) := List.getLast?

/-- Least-recently-queued-first scheduling (what the Python loop does when
every pending discovery is ready). -/
def pickFirstD : List (Nat × Nat) → Option (Nat × Nat) := List.head?

/-- The discoveries a single `process_one` of `d` attempts to queue: each
yielded `Discovery` plus the explorer output of each yielded artefact. -/
def emittedOf (Y : DSys) (xs : List (Sum Nat Nat)) : List Nat :=
  match xs with
  | [] => []
  | .inl d' :: xs => d' :: emittedOf Y xs
  | .inr a :: xs => Y.exploreF a ++ emittedOf Y xs

/-- All discoveries queued while processing `d`. -/
def emittedD (Y : DSys) (d : Nat) : List Nat := emittedOf Y (Y.performF d)

/-- The last artefact among the things `perform` yields: since every
artefact is registered under the same key (the discovery's ptr), this is
the value `found` retains. -/
def lastInr : List (Sum Nat Nat) → Option Nat
  | [] => none
  | .inl _ :: xs => lastInr xs
  | .inr a :: xs =>
    match lastInr xs with
    | some b => some b
    | none => some a

/-- The artefact a fully processed discovery leaves in `found`. -/
def lastArtD (Y : DSys) (d : Nat) : Option Nat := lastInr (Y.performF d)

/-- Discoveries reachable from the initial seeds through processing,
restricted to queueable (non-null, non-sentinel) ptrs. -/
inductive VReach (Y : DSys) (ds0 : List Nat) : Nat → Prop
  | init (d : Nat) : d ∈ ds0 → badPtr (Y.ptrF d) = false → VReach Y ds0 d
  | step (d d' : Nat) : VReach Y ds0 d → d' ∈ emittedD Y d →
      badPtr (Y.ptrF d') = false → VReach Y ds0 d'

/-- A ptr is covered when it is pending or already found. -/
def coveredW (s : WState) (p : Nat) : Prop :=
  (lookupA s.found p).isSome ∨ (lookupA s.pending p).isSome

/-- Run invariant: pending entries are keyed by their discovery's ptr,
reachable and well-keyed; processed discoveries are reachable; `found`
holds exactly last-artefacts of processed discoveries; processed
discoveries are found (granted every discovery yields an artefact); every
queue attempt of a processed discovery and every initial seed is covered;
pending keys are unique. -/
def WInv (Y : DSys) (ds0 : List Nat) (s : WState) : Prop :=
  (∀ e ∈ s.pending, Y.ptrF e.2 = e.1 ∧ VReach Y ds0 e.2 ∧ badPtr e.1 = false) ∧
  (∀ d ∈ s.processed, VReach Y ds0 d) ∧
  (∀ p a, lookupA s.found p = some a →
    ∃ d ∈ s.processed, Y.ptrF d = p ∧ lastArtD Y d = some a) ∧
  (∀ d ∈ s.processed, (lookupA s.found (Y.ptrF d)).isSome) ∧
  (∀ d ∈ s.processed, ∀ d' ∈ emittedD Y d,
    badPtr (Y.ptrF d') = false → coveredW s (Y.ptrF d')) ∧
  (∀ d ∈ ds0, badPtr (Y.ptrF d) = false → coveredW s (Y.ptrF d)) ∧
  (s.pending.map Prod.fst).Nodup

/-- Counterexample instance for claim C1, written against `system.py`'s
`queue`: discoveries 1 and 2 are the seeds (RVAs 1 and 2); processing 1
yields artefact 10 whose explorer queues discovery 4 (RVA 3); processing 2
yields artefact 20 whose explorer queues discovery 3 (RVA 4); processing 3
yields artefact 25 whose explorer queues discovery 5 (RVA 3 again, but a
*different* discovery producing a different artefact than 4 does).
`compare` is the `Discovery.compare` default: equal means `Keep`, anything
else `NoMatch`. -/
def c1Sys : DSys where
  ptrF := fun d =>
    match d with
    | 1 => 1
    | 2 => 2
    | 3 => 4
    | 4 => 3
    | 5 => 3
    | _ => 0
  cmpF := fun d prev => if d = prev then .keep else .noMatch
  performF := fun d =>
    match d with
    | 1 => [.inr 10]
    | 2 => [.inr 20]
    | 3 => [.inr 25]
    | 4 => [.inr 31]
    | 5 => [.inr 32]
    | _ => []
  exploreF := fun a =>
    match a with
    | 10 => [4]
    | 20 => [3]
    | 25 => [5]
    | _ => []

/-- Instance used to witness the amended confluence theorem: ptrs are the
discovery codes themselves (injective), every discovery yields exactly one
artefact and explores nothing. -/
def c1WitSys : DSys where
  ptrF := fun d => d
  cmpF := fun d prev => if d = prev then .keep else .noMatch
  performF := fun d => [.inr (d + 100)]
  exploreF := fun _ => []

/-! ## Function-discovery reconciliation (`discovery/function.py`) -/

/-- `FunctionDiscovery`: the parser function and an optional hint (the
hint value is an opaque code; `compare` only tests it for presence and
equality, as `info` is excluded from the dataclass equality). -/
structure FnDiscovery where
  ptr : Nat
  parserFn : ParserTag
  info : Option Nat
deriving Repr, DecidableEq

/-- Embedding of `FunctionDiscovery.compare` (`self.compare(previous)`):
parser mismatch is `NoMatch`; a hint on `self` only is `Replace`; no hint
on `self` is `Keep`; unequal hints are `NoMatch`; equal hints `Keep`. -/
def FnDiscovery.compare (self prev : FnDiscovery) : DCmp :=
  if self.parserFn ≠ prev.parserFn then .noMatch
  else if self.info.isSome && prev.info.isNone then .replace
  else if self.info.isNone then .keep
  else if self.info ≠ prev.info then .noMatch
  else .keep

/-- `DiscoverySystem.queue` specialised to function discoveries (the
branch of interest for reconciliation; `found` values are opaque). -/
def queueFn (pending : List (Nat × FnDiscovery)) (found : List (Nat × Nat))
    (d : FnDiscovery) : Except Unit (List (Nat × FnDiscovery)) :=
  if badPtr d.ptr then .ok pending
  else if (lookupA found d.ptr).isSome then .ok pending
  else
    match lookupA pending d.ptr with
    | some prev =>
      match d.compare prev with
      | .noMatch => .error ()
      | .replace => .ok (setA pending d.ptr d)
      | .keep => .ok pending
    | none => .ok (pending ++ [(d.ptr, d)])

/-- Existing pending function discovery used in the C7 witness. -/
def c7Prev : FnDiscovery := ⟨5, .parseZConstructTag, none⟩

/-- Newly queued hinted function discovery used in the C7 witness. -/
def c7New : FnDiscovery := ⟨5, .parseZConstructTag, some 2⟩

end UD

namespace UD

/-! ### Claim C10: `peek` reads preserve the cursor and the value -/

/-- Claim C10.  For every base `MemoryStream` (strict or non-strict) and
every read operation — `bytes`, `u8`, `u16`, `u32`, `u64`, `s8`, `s16`,
`s32`, `s64`, `ptr_array` — invoking the read with `peek = true` leaves the
cursor where it was and returns exactly the value the same read without
`peek` would have returned from that position. -/
theorem c10_peek_reads_preserve_position_and_value
    (s : MemoryStream) (n count : Nat) :
    s.bytes n true = ((s.bytes n false).1, s) ∧
    s.u8 true = (s.u8 false).map (fun p => (p.1, s)) ∧
    s.u16 true = (s.u16 false).map (fun p => (p.1, s)) ∧
    s.u32 true = (s.u32 false).map (fun p => (p.1, s)) ∧
    s.u64 true = (s.u64 false).map (fun p => (p.1, s)) ∧
    s.s8 true = (s.s8 false).map (fun p => (p.1, s)) ∧
    s.s16 true = (s.s16 false).map (fun p => (p.1, s)) ∧
    s.s32 true = (s.s32 false).map (fun p => (p.1, s)) ∧
    s.s64 true = (s.s64 false).map (fun p => (p.1, s)) ∧
    s.ptrArray count true = (s.ptrArray count false).map (fun p => (p.1, s)) := by
  refine ⟨rfl, ?_, ?_, ?_, ?_, ?_, ?_, ?_, ?_, ?_⟩
  · unfold MemoryStream.u8; split <;> simp
  · unfold MemoryStream.u16; split
    · simp
    · split <;> simp
  · unfold MemoryStream.u32; split
    · simp
    · split <;> simp
  · unfold MemoryStream.u64; split
    · simp
    · split <;> simp
  · unfold MemoryStream.s8; split <;> simp
  · unfold MemoryStream.s16; split
    · simp
    · split <;> simp
  · unfold MemoryStream.s32; split
    · simp
    · split <;> simp
  · unfold MemoryStream.s64; split
    · simp
    · split <;> simp
  · unfold MemoryStream.ptrArray
    split
    · simp
    · cases h : s.readPtrLoop count <;> simp

/-! ### Claim C4: safe vs. strict zero-terminated readers -/

/-- Counterexample to claim C4.  The claim states that `utf8zt_safe`
returns `None` whenever there is no NUL terminator within the limit.  On
the two-byte window `b'ab'` with the default charset, the strict reader
raises (`String too long`) but the safe reader decodes the entire window
and returns `'ab'`, not `None`. -/
theorem c4_counterexample :
    (MemoryStream.utf8ztSafe ⟨[97, 98], 0, 0, false⟩ (some defaultAllowChars) 256).1 =
      some [97, 98] ∧
    (MemoryStream.utf8zt ⟨[97, 98], 0, 0, false⟩ (some defaultAllowChars) 256).1 =
      none := by decide

/-- Claim C4, amended.  The safe reader returns `none` exactly when the
decoded bytes fail to decode or contain a disallowed character.  When a NUL
exists within the limited window, safe and strict agree completely (value
and cursor); when no NUL exists, the strict reader fails while the safe
reader decodes and validates the whole limited window. -/
theorem c4_safe_matches_strict_except_missing_nul
    (s : MemoryStream) (allowed : List Nat) (limit : Nat) :
    (((s.memory.drop s.pos).take limit).findIdx? (· == 0) = none →
      (s.utf8zt (some allowed) limit).1 = none ∧
      (s.utf8ztSafe (some allowed) limit).1 =
        (utf8Decode ((s.memory.drop s.pos).take limit)).bind
          (fun text =>
            if text.all (fun c => allowed.contains c) then some text else none)) ∧
    (∀ i, ((s.memory.drop s.pos).take limit).findIdx? (· == 0) = some i →
      s.utf8ztSafe (some allowed) limit = s.utf8zt (some allowed) limit ∧
      ((s.utf8ztSafe (some allowed) limit).1 = none ↔
        (utf8Decode (((s.memory.drop s.pos).take limit).take i)).bind
          (fun text =>
            if text.all (fun c => allowed.contains c) then some text else none) =
          none)) := by
  constructor
  · intro h
    unfold MemoryStream.utf8zt MemoryStream.utf8ztSafe
    simp only [h, List.take_length]
    cases hd : utf8Decode ((s.memory.drop s.pos).take limit) with
    | none => simp [hd]
    | some text =>
      simp only [hd]
      cases hall : text.all (fun c => allowed.contains c) with
      | false =>
        have hne : ¬ ∀ x ∈ text, x ∈ allowed := by
          intro hc
          have hx : text.all (fun c => allowed.contains c) = true := by
            rw [List.all_eq_true]
            intro x hxm
            simpa using hc x hxm
          rw [hall] at hx
          exact Bool.false_ne_true hx
        simp [hall, hne]
      | true => simp_all [hall]
  · intro i h
    unfold MemoryStream.utf8zt MemoryStream.utf8ztSafe
    simp only [h]
    cases hd : utf8Decode (((s.memory.drop s.pos).take limit).take i) with
    | none => simp [hd]
    | some text =>
      simp only [hd]
      cases hall : text.all (fun c => allowed.contains c) <;> simp [hall] <;> simp_all

/-- Witness for `c4_safe_matches_strict_except_missing_nul`: on the window
`b'hi\x00'` the NUL sits at index 2, and the theorem yields agreement of
the safe and strict readers there. -/
theorem c4_safe_matches_strict_witness :
    MemoryStream.utf8ztSafe ⟨[104, 105, 0], 0, 0, false⟩ (some defaultAllowChars) 256 =
      MemoryStream.utf8zt ⟨[104, 105, 0], 0, 0, false⟩ (some defaultAllowChars) 256 :=
  ((c4_safe_matches_strict_except_missing_nul ⟨[104, 105, 0], 0, 0, false⟩
    defaultAllowChars 256).2 2 (by decide)).1

/-! ### Claim C8: `find_calls` coverage -/

/-- Counterexample to claim C8.  The claim requires that a `CALL rel32`
whose five bytes end exactly at the end of the buffer is reported.  On the
five-byte buffer `E8 00 00 00 00` with base 0 the call at offset 0 targets
`0 + 0 + 5 + 0 = 5`, yet `find_calls(5, …)` yields nothing, because the
scan runs over `range(len - 5)`, which stops one byte short. -/
theorem c8_counterexample :
    findCalls 5 [0xE8, 0, 0, 0, 0] 0 = [] ∧
    (0 : Nat) + 0 + 5 +
      (MemoryStream.toSigned 4 (MemoryStream.leVal [0xE8, 0, 0, 0, 0] 1 4)).toNat = 5 := by
  decide

/-- Claim C8, amended.  `find_calls` yields `base + o` for exactly those
offsets `o` with `o + 5 < len(memory)` (at least one byte must remain after
the call, so a call ending exactly at the buffer end is missed) whose byte
is `0xE8` and whose decoded target `base + o + 5 + rel32` equals the
requested target; `Image.find_calls` yields the same offsets with the
section base added a second time. -/
theorem c8_find_calls_characterisation
    (target : Nat) (memory : List Nat) (base : Nat) (x : Nat) :
    (x ∈ findCalls target memory base ↔
      ∃ o, o + 5 < memory.length ∧ memory.getD o 0 = 0xE8 ∧
        (base + o + 5 : Int) +
          MemoryStream.toSigned 4 (MemoryStream.leVal memory (o + 1) 4) =
          (target : Int) ∧
        x = o + base) ∧
    (x ∈ imageFindCalls target memory base ↔
      ∃ o, o + 5 < memory.length ∧ memory.getD o 0 = 0xE8 ∧
        (base + o + 5 : Int) +
          MemoryStream.toSigned 4 (MemoryStream.leVal memory (o + 1) 4) =
          (target : Int) ∧
        x = o + base + base) := by
  have hmain : ∀ y, y ∈ findCalls target memory base ↔
      ∃ o, o + 5 < memory.length ∧ memory.getD o 0 = 0xE8 ∧
        (base + o + 5 : Int) +
          MemoryStream.toSigned 4 (MemoryStream.leVal memory (o + 1) 4) =
          (target : Int) ∧
        y = o + base := by
    intro y
    unfold findCalls
    rw [List.mem_filterMap]
    constructor
    · rintro ⟨o, ho, hf⟩
      rw [List.mem_range] at ho
      refine ⟨o, by omega, ?_⟩
      by_cases h1 : memory.getD o 0 = 0xE8
      · rw [if_pos h1] at hf
        by_cases h2 : (base + o + 5 : Int) +
            MemoryStream.toSigned 4 (MemoryStream.leVal memory (o + 1) 4) = (target : Int)
        · rw [if_pos h2] at hf
          exact ⟨h1, h2, (Option.some_inj.mp hf).symm⟩
        · rw [if_neg h2] at hf
          exact absurd hf (by simp)
      · rw [if_neg h1] at hf
        exact absurd hf (by simp)
    · rintro ⟨o, ho, h1, h2, hy⟩
      refine ⟨o, ?_, ?_⟩
      · rw [List.mem_range]; omega
      · rw [if_pos h1, if_pos h2, hy]
  refine ⟨hmain x, ?_⟩
  unfold imageFindCalls
  rw [List.mem_map]
  constructor
  · rintro ⟨y, hy, hx⟩
    obtain ⟨o, h5, h1, h2, hyo⟩ := (hmain y).mp hy
    exact ⟨o, h5, h1, h2, by omega⟩
  · rintro ⟨o, h5, h1, h2, hx⟩
    exact ⟨o + base, (hmain (o + base)).mpr ⟨o, h5, h1, h2, rfl⟩, by omega⟩

/-! ### Claim C5: version-sensitive `PropertyParams` layout -/

/-- Helper for claim C5: below `(5,1)` the version-sensitive middle reads
`i32 ArrayDim` then `u32 Offset`, with no setter/getter pair. -/
theorem readMiddle_eq_midPre51 (v : List Nat) (kind : Nat) (s : MemoryStream)
    (h1 : tupLt v [5, 1] = true) (h2 : tupLt v [5, 3] = true) :
    PropertyParams.readMiddle v kind s = PropertyParams.midPre51 kind s := by
  simp [PropertyParams.readMiddle, PropertyParams.midPre51, h1, h2]

/-- Helper for claim C5: between `(5,1)` and `(5,3)` the middle reads
`i32 ArrayDim`, then the setter/getter pair, then `u32 Offset`. -/
theorem readMiddle_eq_mid51 (v : List Nat) (kind : Nat) (s : MemoryStream)
    (h1 : tupLt v [5, 1] = false) (h2 : tupLt v [5, 3] = true) :
    PropertyParams.readMiddle v kind s = PropertyParams.mid51 kind s := by
  simp [PropertyParams.readMiddle, PropertyParams.mid51, h1, h2]

/-- Helper for claim C5: from `(5,3)` the middle reads the setter/getter
pair, then `u16 ArrayDim`, then `u16 Offset`. -/
theorem readMiddle_eq_mid53 (v : List Nat) (kind : Nat) (s : MemoryStream)
    (h1 : tupLt v [5, 1] = false) (h2 : tupLt v [5, 3] = false) :
    PropertyParams.readMiddle v kind s = PropertyParams.mid53 kind s := by
  simp [PropertyParams.readMiddle, PropertyParams.mid53, h1, h2]

/-- Claim C5.  The `PropertyParams` parser reads `ArrayDim` as a signed
32-bit integer placed before the setter/getter pointers and `Offset` as
`u32` when the version is below `(5,3)` (with the setter/getter pair
present exactly from `(5,1)`), and reads `ArrayDim` as `u16` placed after
the setter/getter pointers and `Offset` as `u16` from `(5,3)`; `Offset` is
read for every kind except `Bool`.  Stated as equality with the three
explicitly-spelled regime readers. -/
theorem c5_property_params_version_layout (v : List Nat) (s : MemoryStream) :
    (tupLt v [5, 1] = true → tupLt v [5, 3] = true →
      PropertyParams.deserialize v s = PropertyParams.readPre51 v s) ∧
    (tupLt v [5, 1] = false → tupLt v [5, 3] = true →
      PropertyParams.deserialize v s = PropertyParams.read51 v s) ∧
    (tupLt v [5, 1] = false → tupLt v [5, 3] = false →
      PropertyParams.deserialize v s = PropertyParams.read53 v s) := by
  refine ⟨fun h1 h2 => ?_, fun h1 h2 => ?_, fun h1 h2 => ?_⟩
  · unfold PropertyParams.deserialize PropertyParams.readPre51
    cases hp : PropertyParams.readPrefix s with
    | none => rfl
    | some val =>
      obtain ⟨⟨nameP, repP, propFlags, flagsFull, objFlags⟩, s'⟩ := val
      simp only [Option.bind_eq_bind, Option.some_bind,
        readMiddle_eq_midPre51 v _ _ h1 h2]
  · unfold PropertyParams.deserialize PropertyParams.read51
    cases hp : PropertyParams.readPrefix s with
    | none => rfl
    | some val =>
      obtain ⟨⟨nameP, repP, propFlags, flagsFull, objFlags⟩, s'⟩ := val
      simp only [Option.bind_eq_bind, Option.some_bind,
        readMiddle_eq_mid51 v _ _ h1 h2]
  · unfold PropertyParams.deserialize PropertyParams.read53
    cases hp : PropertyParams.readPrefix s with
    | none => rfl
    | some val =>
      obtain ⟨⟨nameP, repP, propFlags, flagsFull, objFlags⟩, s'⟩ := val
      simp only [Option.bind_eq_bind, Option.some_bind,
        readMiddle_eq_mid53 v _ _ h1 h2]

/-- Witness for `c5_property_params_version_layout`: the same 52 raw bytes
parsed under `(5,3,0)` give `ArrayDim = 2` (u16) and `Offset = 9` (u16),
while under `(5,0,0)` they give `ArrayDim = 1` (i32) and `Offset = 7`
(u32). -/
theorem c5_property_params_version_layout_witness :
    ((PropertyParams.deserialize [5, 0, 0]
        ⟨List.replicate 24 0 ++ [3, 0, 0, 0] ++ List.replicate 4 0 ++
          [1, 0, 0, 0] ++ [7, 0, 0, 0] ++ List.replicate 8 0 ++ [2, 0] ++
          [9, 0], 0, 0, true⟩).map (fun p => (p.1.ArrayDim, p.1.Offset)) =
      some (1, some 7)) ∧
    ((PropertyParams.deserialize [5, 3, 0]
        ⟨List.replicate 24 0 ++ [3, 0, 0, 0] ++ List.replicate 4 0 ++
          [1, 0, 0, 0] ++ [7, 0, 0, 0] ++ List.replicate 8 0 ++ [2, 0] ++
          [9, 0], 0, 0, true⟩).map (fun p => (p.1.ArrayDim, p.1.Offset)) =
      some (2, some 9)) := by
  constructor
  · rw [(c5_property_params_version_layout [5, 0, 0] _).1 (by decide) (by decide)]
    decide
  · rw [(c5_property_params_version_layout [5, 3, 0] _).2.2 (by decide) (by decide)]
    decide

/-! ### Error ranges of the disassembler helpers -/

/-- Unfolding `pure` for `Except`. -/
theorem epure_eq {e' a : Type} (v : a) : (pure v : Except e' a) = Except.ok v := rfl

/-- Unfolding a successful `Except` bind. -/
theorem ebind_ok {e' a b : Type} (v : a) (f : a → Except e' b) :
    (Except.ok v >>= f : Except e' b) = f v := rfl

/-- Unfolding a failing `Except` bind. -/
theorem ebind_err {e' a b : Type} (q : e') (f : a → Except e' b) :
    ((Except.error q : Except e' a) >>= f) = Except.error q := rfl

/-- Decompose a failing `Except` bind. -/
theorem except_bind_error {e' a b : Type} {x : Except e' a} {f : a → Except e' b} {er : e'}
    (h : (x >>= f) = .error er) : x = .error er ∨ ∃ v, x = .ok v ∧ f v = .error er := by
  cases x with
  | error q =>
    left
    rw [ebind_err] at h
    injection h with h1
    rw [h1]
  | ok v => right; exact ⟨v, rfl, by rwa [ebind_ok] at h⟩

/-- Decompose a successful `Except` bind. -/
theorem except_bind_ok_elim {e' a b : Type} {x : Except e' a} {f : a → Except e' b} {r : b}
    (h : x >>= f = .ok r) : ∃ v, x = .ok v ∧ f v = .ok r := by
  cases x with
  | error q => simp [ebind_err] at h
  | ok v => exact ⟨v, rfl, by simpa [ebind_ok] using h⟩

/-- A Z-construct artefact produced by a successful kind cross-check is
never a trampoline. -/
theorem generateArtefactForZConstruct_not_trampoline
    {byFn byCalled : List (Nat × ZConstructFnType)} {res : CachedCallResult}
    {startAddr endAddr : Nat} {c : CodeGrabber} {a : FnArtefact}
    (h : generateArtefactForZConstruct byFn byCalled res startAddr endAddr c =
      .ok (some a)) : a.isTrampoline = false := by
  unfold generateArtefactForZConstruct at h
  repeat' split at h
  all_goals simp_all [FnArtefact.isTrampoline]
  subst h
  rfl

/-- The strict post-parse block never returns a trampoline artefact. -/
theorem generateArtefactStrict_ok_not_trampoline
    {byFn byCalled : List (Nat × ZConstructFnType)} {info : Option ZConstructFnType}
    {parsed0 : Option CachedCallResult} {startAddr endAddr : Nat}
    {c : CodeGrabber} {a : FnArtefact}
    (h : generateArtefactStrict byFn byCalled info parsed0 startAddr endAddr c =
      .ok a) : a.isTrampoline = false := by
  simp only [generateArtefactStrict] at h
  repeat' split at h
  all_goals simp_all [FnArtefact.isTrampoline]
  all_goals (subst h; rfl)

/-- A decoded instruction comes from the grabber's window, which the
advance preserves. -/
theorem nextInst_ok_mem {c : CodeGrabber} {i : Instr} {c' : CodeGrabber}
    (h : c.nextInst = .ok (i, c')) : i ∈ c.prog ∧ c'.prog = c.prog := by
  unfold CodeGrabber.nextInst at h
  cases hf : c.fetch with
  | none => rw [hf] at h; cases h
  | some j =>
    rw [hf] at h
    injection h with h1
    have h2 : j = i ∧ ({ c with ip := c.ip + j.length } : CodeGrabber) = c' :=
      Prod.mk.injEq .. ▸ h1
    obtain ⟨h2, h3⟩ := h2
    subst h2
    exact ⟨List.mem_of_find?_eq_some hf, by rw [← h3]⟩

/-- `ARG_REGS` has four entries, so an argument-register index is at
most 3. -/
theorem argRegIndex_le_three {r : Reg} {idx : Nat}
    (h : argRegIndex r = some idx) : idx ≤ 3 := by
  cases r <;> simp [argRegIndex] at h <;> omega

/-- Every `(value, size, slot)` triple emitted by the marshalling loop has
an in-range slot: a register slot between `0xFFFC` and `0xFFFF`, or a
stack slot at most the stack size (assuming non-negative decoded memory
displacements, as iced-x86 yields for these addressing forms). -/
theorem gatherLoop_slots (ss : Nat) :
    ∀ (fuel : Nat) (c : CodeGrabber) (regs : Reg → Nat) (params : List ArgTriple)
      (fn : Nat) (triples : List ArgTriple) (c' : CodeGrabber),
      (∀ i ∈ c.prog, 0 ≤ i.memDispI) →
      (∀ t ∈ params, slotOK ss t) →
      gatherLoop fuel c ss regs params = .ok ((fn, triples), c') →
      ∀ t ∈ triples, slotOK ss t := by
  intro fuel
  induction fuel with
  | zero =>
    intro c regs params fn triples c' _ _ h
    simp [gatherLoop] at h
  | succ fuel ih =>
    intro c regs params fn triples c' hdisp hparams h
    rw [gatherLoop] at h
    obtain ⟨⟨inst, c1⟩, hn, h⟩ := except_bind_ok_elim h
    have hm := nextInst_ok_mem hn
    have hdisp1 : ∀ i ∈ c1.prog, 0 ≤ i.memDispI := hm.2 ▸ hdisp
    simp only [] at h
    split at h
    · -- CALL: the loop stops and returns the collected triples
      simp only [Except.ok.injEq, Prod.mk.injEq] at h
      obtain ⟨⟨-, h2⟩, -⟩ := h
      subst h2
      exact hparams
    · split at h
      · -- LEA
        obtain ⟨reg, hr, h⟩ := except_bind_ok_elim h
        split at h
        · rename_i idx hidx
          refine ih c1 _ _ fn triples c' hdisp1 ?_ h
          intro t ht
          rcases List.mem_append.1 ht with ht | ht
          · exact hparams t ht
          · have hidx3 := argRegIndex_le_three hidx
            simp only [List.mem_singleton] at ht
            subst ht
            exact Or.inl ⟨by show (0xFFFC : Int) ≤ 0xFFFF - (idx : Int); omega,
              by show (0xFFFF : Int) - (idx : Int) ≤ 0xFFFF; omega⟩
        · obtain ⟨u1, hu1, h⟩ := except_bind_ok_elim h
          obtain ⟨⟨inst2, c2⟩, hn2, h⟩ := except_bind_ok_elim h
          have hm2 := nextInst_ok_mem hn2
          obtain ⟨u2, hu2, h⟩ := except_bind_ok_elim h
          obtain ⟨u3, hu3, h⟩ := except_bind_ok_elim h
          obtain ⟨r1, hr1, h⟩ := except_bind_ok_elim h
          obtain ⟨u4, hu4, h⟩ := except_bind_ok_elim h
          refine ih c2 _ _ fn triples c' (hm2.2 ▸ hdisp1) ?_ h
          intro t ht
          rcases List.mem_append.1 ht with ht | ht
          · exact hparams t ht
          · have hd2 : 0 ≤ inst2.memDispI := hdisp1 inst2 hm2.1
            simp only [List.mem_singleton] at ht
            subst ht
            exact Or.inr (by show -inst2.memDispI ≤ (ss : Int); omega)
      · split at h
        · -- MOV qword [R11 + #], imm32
          obtain ⟨u1, hu1, h⟩ := except_bind_ok_elim h
          refine ih c1 _ _ fn triples c' hdisp1 ?_ h
          intro t ht
          rcases List.mem_append.1 ht with ht | ht
          · exact hparams t ht
          · have hd : 0 ≤ inst.memDispI := hdisp inst hm.1
            simp only [List.mem_singleton] at ht
            subst ht
            exact Or.inr (by show -inst.memDispI ≤ (ss : Int); omega)
        · split at h
          · -- MOV dword [R11/RSP + #], imm32
            split at h
            · simp only [epure_eq, ebind_ok] at h
              refine ih c1 _ _ fn triples c' hdisp1 ?_ h
              intro t ht
              rcases List.mem_append.1 ht with ht | ht
              · exact hparams t ht
              · simp only [List.mem_singleton] at ht
                subst ht
                exact Or.inr
                  (by show -(inst.memDispU : Int) ≤ (ss : Int); omega)
            · split at h
              · simp only [epure_eq, ebind_ok] at h
                refine ih c1 _ _ fn triples c' hdisp1 ?_ h
                intro t ht
                rcases List.mem_append.1 ht with ht | ht
                · exact hparams t ht
                · simp only [List.mem_singleton] at ht
                  subst ht
                  exact Or.inr
                    (by show (ss : Int) - (inst.memDispU : Int) ≤ (ss : Int)
                        omega)
              · simp [ebind_err] at h
          · split at h
            · -- MOV [R11/RSP + #], R64
              have hd : 0 ≤ inst.memDispI := hdisp inst hm.1
              split at h
              · simp only [epure_eq, ebind_ok] at h
                obtain ⟨r1, hr1, h⟩ := except_bind_ok_elim h
                refine ih c1 _ _ fn triples c' hdisp1 ?_ h
                intro t ht
                rcases List.mem_append.1 ht with ht | ht
                · exact hparams t ht
                · simp only [List.mem_singleton] at ht
                  subst ht
                  exact Or.inr (by show -inst.memDispI ≤ (ss : Int); omega)
              · split at h
                · simp only [epure_eq, ebind_ok] at h
                  obtain ⟨r1, hr1, h⟩ := except_bind_ok_elim h
                  refine ih c1 _ _ fn triples c' hdisp1 ?_ h
                  intro t ht
                  rcases List.mem_append.1 ht with ht | ht
                  · exact hparams t ht
                  · simp only [List.mem_singleton] at ht
                    subst ht
                    exact Or.inr
                      (by show (ss : Int) - inst.memDispI ≤ (ss : Int); omega)
                · simp [ebind_err] at h
            · split at h
              · -- MOV R64, imm64
                obtain ⟨reg, hr, h⟩ := except_bind_ok_elim h
                split at h
                · rename_i idx hidx
                  refine ih c1 _ _ fn triples c' hdisp1 ?_ h
                  intro t ht
                  rcases List.mem_append.1 ht with ht | ht
                  · exact hparams t ht
                  · have hidx3 := argRegIndex_le_three hidx
                    simp only [List.mem_singleton] at ht
                    subst ht
                    exact Or.inl ⟨by show (0xFFFC : Int) ≤ 0xFFFF - (idx : Int); omega,
                      by show (0xFFFF : Int) - (idx : Int) ≤ 0xFFFF; omega⟩
                · exact ih c1 _ _ fn triples c' hdisp1 hparams h
              · cases h

/-- A list that is pairwise descending in slot splits as its
register-range entries followed by everything below the register
range. -/
theorem pairwise_slotGE_filter_split :
    ∀ (l : List ArgTriple), List.Pairwise slotGE l →
      l = l.filter (fun p => decide ((0xFFFC : Int) ≤ p.2.2)) ++
          l.filter (fun p => !decide ((0xFFFC : Int) ≤ p.2.2)) := by
  intro l hl
  induction l with
  | nil => rfl
  | cons a tl ih =>
    rcases List.pairwise_cons.1 hl with ⟨ha, htl⟩
    by_cases hq : (0xFFFC : Int) ≤ a.2.2
    · rw [List.filter_cons_of_pos (by simpa using hq),
        List.filter_cons_of_neg (by simpa using hq), List.cons_append]
      exact congrArg (a :: ·) (ih htl)
    · have hall : ∀ b ∈ tl, ¬ ((0xFFFC : Int) ≤ b.2.2) :=
        fun b hb hle => hq (le_trans hle (ha b hb))
      rw [List.filter_cons_of_neg (by simpa using hq),
        List.filter_cons_of_pos (by simpa using hq)]
      have h1 : tl.filter (fun p => decide ((0xFFFC : Int) ≤ p.2.2)) = [] := by
        rw [List.filter_eq_nil_iff]
        intro b hb
        simpa using hall b hb
      have h2 : tl.filter (fun p => !decide ((0xFFFC : Int) ≤ p.2.2)) = tl := by
        rw [List.filter_eq_self]
        intro b hb
        simpa using hall b hb
      rw [h1, h2, List.nil_append]

/-- Exceptions escaping `parse_fn_prelude`. -/
theorem parseFnPrelude_error {c c' : CodeGrabber} {e : PErr}
    (h : parseFnPrelude c = .error (e, c')) :
    e = .stopIteration ∨ e = .indexError ∨ e = .assertFail ∨
      e = .unexpectedInstruction := by
  unfold parseFnPrelude CodeGrabber.nextInst getReg assertTrue at h
  repeat' (first
    | simp only [ebind_ok, ebind_err, epure_eq] at h
    | split at h)
  all_goals simp_all

/-- Exceptions escaping the `gather_call_params` loop. -/
theorem gatherLoop_error : ∀ (fuel : Nat) (c : CodeGrabber) (ss : Nat)
    (regs : Reg → Nat) (acc : List ArgTriple) {e : PErr} {c' : CodeGrabber},
    gatherLoop fuel c ss regs acc = .error (e, c') →
    e = .stopIteration ∨ e = .fuelOut ∨ e = .assertFail ∨ e = .indexError := by
  intro fuel
  induction fuel with
  | zero =>
    intro c ss regs acc e c' h
    unfold gatherLoop at h
    simp_all
  | succ n ih =>
    intro c ss regs acc e c' h
    unfold gatherLoop CodeGrabber.nextInst getReg assertTrue at h
    repeat' (first
      | simp only [ebind_ok, ebind_err, epure_eq] at h
      | split at h)
    all_goals first
      | exact ih _ _ _ _ h
      | simp_all

/-- Exceptions escaping `gather_call_params`. -/
theorem gatherCallParams_error {fuel : Nat} {c : CodeGrabber} {ss : Nat}
    {ssr : Option Reg} {e : PErr} {c' : CodeGrabber}
    (h : gatherCallParams fuel c ss ssr = .error (e, c')) :
    e = .stopIteration ∨ e = .fuelOut ∨ e = .assertFail ∨ e = .indexError := by
  unfold gatherCallParams at h
  rcases except_bind_error h with hx | ⟨v, hx, h2⟩
  · exact gatherLoop_error _ _ _ _ _ hx
  · obtain ⟨⟨fn, params⟩, c1⟩ := v
    simp at h2

set_option maxHeartbeats 1000000 in
/-- Exceptions escaping `parse_cached_call`. -/
theorem parseCachedCall_error : ∀ (fuel : Nat) (c : CodeGrabber) {e : PErr}
    {c' : CodeGrabber}, parseCachedCall fuel c = .error (e, c') →
    e = .stopIteration ∨ e = .fuelOut ∨ e = .assertFail ∨ e = .indexError ∨
      e = .unexpectedInstruction := by
  intro fuel
  induction fuel with
  | zero =>
    intro c e c' h
    unfold parseCachedCall at h
    simp_all
  | succ n ih =>
    intro c e c' h
    unfold parseCachedCall at h
    obtain h | ⟨⟨⟨ss, ssr⟩, c1⟩, -, h⟩ := except_bind_error h
    · have hp := parseFnPrelude_error h; tauto
    · simp only [] at h
      obtain h | ⟨⟨inst, c2⟩, -, h⟩ := except_bind_error h
      · unfold CodeGrabber.nextInst at h
        split at h <;> simp_all
      · simp only [] at h
        split at h
        · exact ih _ h
        · obtain h | ⟨⟨⟨cv, cf, rl⟩, c3⟩, -, h⟩ := except_bind_error h
          · unfold parseCacheApparatus CodeGrabber.nextInst assertTrue at h
            repeat' (first
              | simp only [ebind_ok, ebind_err, epure_eq] at h
              | split at h)
            all_goals simp_all
          · simp only [] at h
            obtain h | ⟨⟨⟨fn, params⟩, c4⟩, -, h⟩ := except_bind_error h
            · have hg := gatherCallParams_error h; tauto
            · simp only [] at h
              obtain h | ⟨⟨u, c5⟩, -, h⟩ := except_bind_error h
              · unfold parseCachedEpilogue CodeGrabber.nextInst assertTrue at h
                repeat' (first
                  | simp only [ebind_ok, ebind_err, epure_eq] at h
                  | split at h)
                all_goals simp_all
              · simp only [epure_eq] at h
                simp at h

/-- Exceptions escaping `parse_trampolines`. -/
theorem parseTrampolines_error : ∀ (fuel : Nat) (c : CodeGrabber) {e : PErr}
    {c' : CodeGrabber}, parseTrampolines fuel c = .error (e, c') →
    e = .stopIteration ∨ e = .fuelOut := by
  intro fuel
  induction fuel with
  | zero =>
    intro c e c' h
    unfold parseTrampolines at h
    simp_all
  | succ n ih =>
    intro c e c' h
    unfold parseTrampolines CodeGrabber.nextInst at h
    repeat' (first
      | simp only [ebind_ok, ebind_err, epure_eq] at h
      | split at h
      | obtain h | ⟨v, hv, h⟩ := except_bind_error h)
    all_goals first
      | exact ih _ h
      | simp_all

/-- Exceptions escaping the guarded cached-call parse (the `try`/`except`
leaves only decoder exhaustion, fuel exhaustion and `IndexError`). -/
theorem parseCachedCallGuarded_error {fuel : Nat} {c : CodeGrabber} {e : PErr}
    {c' : CodeGrabber} (h : parseCachedCallGuarded fuel c = .error (e, c')) :
    e = .stopIteration ∨ e = .fuelOut ∨ e = .indexError := by
  unfold parseCachedCallGuarded at h
  split at h
  · simp at h
  · simp at h
  · simp at h
  · rename_i pe hne1 hne2 heq
    obtain ⟨pec, cec⟩ := pe
    injection h with h1
    cases h1
    have hr := parseCachedCall_error _ _ heq
    rcases hr with h1 | h1 | h1 | h1 | h1 <;> subst h1
    · tauto
    · tauto
    · exact absurd rfl (hne1 c')
    · tauto
    · exact absurd rfl (hne2 c')

/-- A guarded cached-call parse that produced a value reflects a successful
`parse_cached_call`. -/
theorem parseCachedCallGuarded_ok_some {fuel : Nat} {c : CodeGrabber}
    {res : CachedCallResult} {c2 : CodeGrabber}
    (h : parseCachedCallGuarded fuel c = .ok (some res, c2)) :
    parseCachedCall fuel c = .ok (res, c2) := by
  unfold parseCachedCallGuarded at h
  split at h <;> simp_all

/-! ### Claim C2: error behaviour of the tolerant parser -/

/-- Claim C2, amended.  Exceptions escaping `parse_ZConstructOrStaticClass`
are never the tolerated parse failures (`AssertionError`,
`UnexpectedInstruction`) and never a `TypeError`; and a `ValueError`
escapes exactly from the kind cross-check — both kind lookups succeeded on
a successfully parsed two-argument cached call, and the two kinds
disagree.  So the tolerant parser's kind mismatch is fatal, exactly like
the strict parser's; everything the claim lists as recoverable is indeed
captured as `UnparsableFunction`. -/
theorem c2_tolerant_parser_error_characterisation
    (fuel : Nat) (byFn byCalled : List (Nat × ZConstructFnType))
    (c : CodeGrabber) (e : PErr) (c' : CodeGrabber)
    (h : parseZConstructOrStaticClass fuel byFn byCalled c = .error (e, c')) :
    e ≠ .assertFail ∧ e ≠ .unexpectedInstruction ∧ e ≠ .typeError ∧
    (e = .valueError →
      ∃ jumps c1 res c2 k1 k2,
        parseTrampolines fuel c = .ok (jumps, c1) ∧
        parseCachedCall fuel c1 = .ok (res, c2) ∧
        res.parameters.length = 2 ∧
        lookupA byFn c1.ip = some k1 ∧
        lookupA byCalled res.calledFnAddr = some k2 ∧
        k1 ≠ k2) := by
  unfold parseZConstructOrStaticClass at h
  obtain h | ⟨⟨jumps, c1⟩, hj, h⟩ := except_bind_error h
  · rcases parseTrampolines_error _ _ h with h1 | h1 <;> subst h1 <;>
      exact ⟨by simp, by simp, by simp, by intro hc; cases hc⟩
  · simp only [] at h
    obtain h | ⟨⟨parsedOpt, c2⟩, hv, h⟩ := except_bind_error h
    · rcases parseCachedCallGuarded_error h with h1 | h1 | h1 <;> subst h1 <;>
        exact ⟨by simp, by simp, by simp, by intro hc; cases hc⟩
    · simp only [] at h
      cases parsedOpt with
      | none => simp at h
      | some res =>
        simp only [] at h
        split at h
        · split at h
          · simp at h
          · simp at h
          · rename_i x0 x1 heq
            have hlen : res.parameters.length = 2 := by assumption
            obtain ⟨gec, gecs⟩ := x1
            simp only [ebind_err] at h
            injection h with h1
            cases h1
            unfold generateArtefactForZConstruct at heq
            split at heq
            · simp at heq
            · split at heq
              · simp at heq
              · split at heq
                · rename_i x1a k1 hk1 x2a k2 hk2 hne
                  injection heq with h2
                  obtain ⟨h3, -⟩ := Prod.mk.injEq .. ▸ h2
                  subst h3
                  exact ⟨by simp, by simp, by simp, fun _ =>
                    ⟨jumps, c1, res, c2, k1, k2, hj,
                      parseCachedCallGuarded_ok_some hv, hlen, hk1, hk2, hne⟩⟩
                · split at heq
                  · simp at heq
                  · rename_i hnotpair
                    exfalso
                    obtain ⟨ca, cf, ps⟩ := res
                    match ps, hlen with
                    | [p1, p2], _ => exact hnotpair p1 p2 rfl
        · split at h <;> simp_all

/-! ### Claim C3: seed classification by unique validating candidate -/

/-- Claim C3 evaluated at the failing input.  `c3Image` holds a
`FPackageParams` record at RVA 4352 for which exactly one candidate parses
and validates (the intended classification), yet the code as written
assigns no kind whatsoever: the candidate parse calls `struct_from_stream`
without its required `ctx` argument, the `TypeError` is swallowed by the
blanket `except`, every candidate is skipped, and the categorisation
produces an empty table for any group. -/
theorem c3_missing_ctx_evaluation :
    guessPossibleStructTypes c3Image 4352 = .ok [] ∧
    guessPossibleStructTypesIntended c3Image 4352 = .ok [RecordType.packageParams] ∧
    categorizeZConstructCalls c3Image [(9999, [4352])] = .ok [] := by decide

/-- Counterexample to claim C2.  The claim states the tolerant
Z-or-StaticClass parser turns every failed kind cross-check into an
`UnparsableFunction` artefact and that only the strict parser's kind
mismatch is fatal.  But `_generate_artefact_for_ZConstruct` raises
`ValueError` on a kind mismatch and `parse_ZConstructOrStaticClass` only
catches `AssertionError` and the unexpected-instruction error around
`parse_cached_call`, so on this fully well-formed cached call whose seed
index says `Package` at the function and `Enum` at the callee the tolerant
parser raises an uncaught `ValueError` instead of emitting an artefact. -/
theorem c2_counterexample :
    parseZConstructOrStaticClass 20 [(100, ZConstructFnType.package)]
      [(0x5000, ZConstructFnType.enum)] ⟨c2Prog, 100⟩ =
    .error (.valueError, ⟨c2Prog, 136⟩) := by rfl

/-- Witness for `c2_tolerant_parser_error_characterisation` at the
concrete mismatched-kinds input: the escaping exception is the
`ValueError` of the kind cross-check, never one of the tolerated
failures. -/
theorem c2_tolerant_parser_error_witness :
    PErr.valueError ≠ .assertFail ∧ PErr.valueError ≠ .unexpectedInstruction ∧
    PErr.valueError ≠ .typeError ∧
    (PErr.valueError = .valueError →
      ∃ jumps c1 res c2 k1 k2,
        parseTrampolines 20 ⟨c2Prog, 100⟩ = .ok (jumps, c1) ∧
        parseCachedCall 20 c1 = .ok (res, c2) ∧
        res.parameters.length = 2 ∧
        lookupA [(100, ZConstructFnType.package)] c1.ip = some k1 ∧
        lookupA [(0x5000, ZConstructFnType.enum)] res.calledFnAddr = some k2 ∧
        k1 ≠ k2) :=
  c2_tolerant_parser_error_characterisation 20 [(100, .package)]
    [(0x5000, .enum)] ⟨c2Prog, 100⟩ .valueError ⟨c2Prog, 136⟩ (by rfl)

/-- Counterexample to claim C9.  The claim says a processed discovery
registers exactly one artefact.  On a function starting with one `JMP
rel32` trampoline, the parser yields two artefacts — a `Trampoline` for
the jump and the final (here unparsable) function artefact — and
`_register_found` stores every one of them, so this discovery registers
two artefacts, not one. -/
theorem c9_counterexample :
    parseZConstructOrStaticClass 20 [] [] ⟨c9Prog, 0⟩ =
    .ok ([FnArtefact.trampoline 0 5
            (.unparsable 100 122 .parseZConstructOrStaticClassTag),
          .unparsable 100 122 .parseZConstructOrStaticClassTag],
         ⟨c9Prog, 122⟩) := by rfl

set_option maxHeartbeats 1000000 in
/-- Claim C9, amended.  A successfully processed function parse registers
one artefact per leading trampoline jump plus exactly one final artefact
(possibly `UnparsableFunction`): every success of the three function
parsers has the shape `trampolines ++ [artefact]` where the final artefact
is never itself a trampoline.  A discovery with leading jumps therefore
registers more than one artefact, against the claim's "exactly one". -/
theorem c9_parsers_emit_one_artefact_per_jump_plus_one
    (fuel : Nat) (byFn byCalled : List (Nat × ZConstructFnType))
    (info : Option ZConstructFnType) (c c' : CodeGrabber)
    (arts : List FnArtefact) :
    (parseZConstructOrStaticClass fuel byFn byCalled c = .ok (arts, c') →
      ∃ (jumps : List Nat) (a : FnArtefact),
        arts = jumps.map (fun j => FnArtefact.trampoline j (j + 5) a) ++ [a] ∧
        a.isTrampoline = false) ∧
    (parseStaticClass fuel c = .ok (arts, c') →
      ∃ (jumps : List Nat) (a : FnArtefact),
        arts = jumps.map (fun j => FnArtefact.trampoline j (j + 5) a) ++ [a] ∧
        a.isTrampoline = false) ∧
    (parseZConstruct fuel byFn byCalled info c = .ok (arts, c') →
      ∃ (jumps : List Nat) (a : FnArtefact),
        arts = jumps.map (fun j => FnArtefact.trampoline j (j + 5) a) ++ [a] ∧
        a.isTrampoline = false) := by
  refine ⟨fun h => ?_, fun h => ?_, fun h => ?_⟩
  · unfold parseZConstructOrStaticClass at h
    obtain ⟨⟨jumps, c1⟩, h1, h⟩ := except_bind_ok_elim h
    simp only [] at h
    obtain ⟨⟨parsedOpt, c2⟩, h2, h⟩ := except_bind_ok_elim h
    simp only [] at h
    cases parsedOpt with
    | none =>
      simp only [epure_eq, ebind_ok, Except.ok.injEq, Prod.mk.injEq] at h
      obtain ⟨h4, -⟩ := h
      subst h4
      exact ⟨jumps, _, rfl, rfl⟩
    | some res =>
      simp only [] at h
      split at h
      · split at h
        · rename_i a0 heq
          simp only [epure_eq, ebind_ok, Except.ok.injEq, Prod.mk.injEq] at h
          obtain ⟨h4, -⟩ := h
          subst h4
          exact ⟨jumps, a0, rfl,
            generateArtefactForZConstruct_not_trampoline heq⟩
        · simp only [epure_eq, ebind_ok, Except.ok.injEq, Prod.mk.injEq] at h
          obtain ⟨h4, -⟩ := h
          subst h4
          exact ⟨jumps, _, rfl, rfl⟩
        · simp [ebind_err] at h
      · split at h
        · simp only [epure_eq, ebind_ok, Except.ok.injEq, Prod.mk.injEq] at h
          obtain ⟨h4, -⟩ := h
          subst h4
          exact ⟨jumps, _, rfl, rfl⟩
        · simp only [epure_eq, ebind_ok, Except.ok.injEq, Prod.mk.injEq] at h
          obtain ⟨h4, -⟩ := h
          subst h4
          exact ⟨jumps, _, rfl, rfl⟩
  · unfold parseStaticClass at h
    obtain ⟨⟨jumps, c1⟩, h1, h⟩ := except_bind_ok_elim h
    simp only [] at h
    obtain ⟨⟨parsed, c2⟩, h2, h⟩ := except_bind_ok_elim h
    simp only [] at h
    split at h
    · simp only [Except.ok.injEq, Prod.mk.injEq] at h
      obtain ⟨h4, -⟩ := h
      subst h4
      exact ⟨jumps, _, rfl, rfl⟩
    · simp at h
  · unfold parseZConstruct at h
    obtain ⟨⟨jumps, c1⟩, h1, h⟩ := except_bind_ok_elim h
    simp only [] at h
    obtain ⟨⟨parsedOpt, c2⟩, h2, h⟩ := except_bind_ok_elim h
    simp only [] at h
    obtain ⟨a, h3, h⟩ := except_bind_ok_elim h
    simp only [epure_eq, Except.ok.injEq, Prod.mk.injEq] at h
    obtain ⟨h4, -⟩ := h
    subst h4
    exact ⟨jumps, a, rfl, generateArtefactStrict_ok_not_trampoline h3⟩

/-- Witness for `c9_parsers_emit_one_artefact_per_jump_plus_one` at the
one-trampoline input: the two emitted artefacts decompose as one
trampoline per jump followed by a single non-trampoline artefact. -/
theorem c9_parsers_emit_witness :
    ∃ (jumps : List Nat) (a : FnArtefact),
      [FnArtefact.trampoline 0 5
          (.unparsable 100 122 .parseZConstructOrStaticClassTag),
        FnArtefact.unparsable 100 122 .parseZConstructOrStaticClassTag] =
        jumps.map (fun j => FnArtefact.trampoline j (j + 5) a) ++ [a] ∧
      a.isTrampoline = false :=
  (c9_parsers_emit_one_artefact_per_jump_plus_one 20 [] [] none ⟨c9Prog, 0⟩
    ⟨c9Prog, 122⟩
    [FnArtefact.trampoline 0 5
        (.unparsable 100 122 .parseZConstructOrStaticClassTag),
      FnArtefact.unparsable 100 122 .parseZConstructOrStaticClassTag]).1
    (by rfl)

/-- Claim C6.  On every accepted argument-marshalling block the returned
positional argument vector is the emitted `(value, size, slot)` triples
sorted by descending slot (Python's stable `sort(key=slot, reverse=True)`)
with the negative-slot entries removed; every emitted slot is either a
calling-convention register slot `0xFFFF - index` for `RCX`, `RDX`, `R8`,
`R9` (so between `0xFFFC` and `0xFFFF`) or a stack slot bounded by the
stack size, so when the stack size is below `0xFFFC` the register
arguments all precede the stack-slot arguments in the vector (the split
conjunct: the surviving sorted list is its register-range entries followed
by the rest). -/
theorem c6_gather_call_params_order
    (fuel : Nat) (c c' : CodeGrabber) (ss : Nat) (ssr : Option Reg)
    (fn : Nat) (args : List Nat)
    (hdisp : ∀ i ∈ c.prog, 0 ≤ i.memDispI)
    (hss : (ss : Int) < 0xFFFC)
    (h : gatherCallParams fuel c ss ssr = .ok ((fn, args), c')) :
    ∃ triples : List ArgTriple,
      gatherLoop fuel c ss (initRegs ss ssr) [] = .ok ((fn, triples), c') ∧
      args = ((triples.insertionSort slotGE).filter
          (fun p => decide ((0 : Int) ≤ p.2.2))).map (fun p => p.1) ∧
      List.Sorted slotGE (triples.insertionSort slotGE) ∧
      (∀ t ∈ triples, slotOK ss t) ∧
      (∀ t ∈ triples, ((0xFFFC : Int) ≤ t.2.2 → t.2.2 ≤ 0xFFFF) ∧
        (¬ ((0xFFFC : Int) ≤ t.2.2) → t.2.2 ≤ (ss : Int))) ∧
      ((triples.insertionSort slotGE).filter (fun p => decide ((0 : Int) ≤ p.2.2))) =
        ((triples.insertionSort slotGE).filter
            (fun p => decide ((0 : Int) ≤ p.2.2))).filter
          (fun p => decide ((0xFFFC : Int) ≤ p.2.2)) ++
        ((triples.insertionSort slotGE).filter
            (fun p => decide ((0 : Int) ≤ p.2.2))).filter
          (fun p => !decide ((0xFFFC : Int) ≤ p.2.2)) := by
  unfold gatherCallParams at h
  obtain ⟨⟨⟨fn0, params⟩, c1⟩, hg, h⟩ := except_bind_ok_elim h
  simp only [] at h
  simp only [Except.ok.injEq, Prod.mk.injEq] at h
  obtain ⟨⟨hfn, hargs⟩, hc⟩ := h
  subst hfn
  subst hc
  have hslots : ∀ t ∈ params, slotOK ss t :=
    gatherLoop_slots ss fuel c _ [] _ params c1 hdisp
      (fun t ht => absurd ht (List.not_mem_nil t)) hg
  refine ⟨params, hg, hargs.symm, List.sorted_insertionSort slotGE params,
    hslots, ?_, ?_⟩
  · intro t ht
    constructor
    · intro hge
      rcases hslots t ht with hr | hr
      · exact hr.2
      · omega
    · intro hreg
      rcases hslots t ht with hr | hr
      · exact absurd hr.1 hreg
      · exact hr
  · exact pairwise_slotGE_filter_split _
      (List.Pairwise.filter _ (List.sorted_insertionSort slotGE params))

/-- Witness for `c6_gather_call_params_order` at the concrete block of
`c6Prog` (a dword stack store at `RSP+8`, then `LEA RDX`, then `LEA RCX`,
then the call): both register arguments precede the stack argument. -/
theorem c6_gather_call_params_order_witness :
    (∀ i ∈ (⟨c6Prog, 0⟩ : CodeGrabber).prog, 0 ≤ i.memDispI) ∧
    ((0x28 : Nat) : Int) < 0xFFFC ∧
    (∃ triples : List ArgTriple,
      gatherLoop 10 ⟨c6Prog, 0⟩ 0x28 (initRegs 0x28 none) [] =
        .ok ((0x999, triples), ⟨c6Prog, 27⟩) ∧
      [0x600, 0x500, 7] = ((triples.insertionSort slotGE).filter
          (fun p => decide ((0 : Int) ≤ p.2.2))).map (fun p => p.1) ∧
      List.Sorted slotGE (triples.insertionSort slotGE) ∧
      (∀ t ∈ triples, slotOK 0x28 t) ∧
      (∀ t ∈ triples, ((0xFFFC : Int) ≤ t.2.2 → t.2.2 ≤ 0xFFFF) ∧
        (¬ ((0xFFFC : Int) ≤ t.2.2) → t.2.2 ≤ ((0x28 : Nat) : Int))) ∧
      ((triples.insertionSort slotGE).filter (fun p => decide ((0 : Int) ≤ p.2.2))) =
        ((triples.insertionSort slotGE).filter
            (fun p => decide ((0 : Int) ≤ p.2.2))).filter
          (fun p => decide ((0xFFFC : Int) ≤ p.2.2)) ++
        ((triples.insertionSort slotGE).filter
            (fun p => decide ((0 : Int) ≤ p.2.2))).filter
          (fun p => !decide ((0xFFFC : Int) ≤ p.2.2))) :=
  ⟨by decide, by decide,
    c6_gather_call_params_order 10 ⟨c6Prog, 0⟩ ⟨c6Prog, 27⟩ 0x28 none 0x999
      [0x600, 0x500, 7] (by decide) (by decide) (by rfl)⟩

/-- Counterexample to claim C1.  Starting from the same initial queue
(discoveries 1 and 2), the least-recently-queued-first run and the
most-recently-queued-first run both terminate with an empty queue and no
conflict, yet the final `found` maps differ at RVA 3: `queue` drops a
discovery whose RVA is already in `found` before any comparison, so
whichever of the two distinct RVA-3 discoveries is processed first
silently suppresses the other. -/
theorem c1_counterexample :
    (queueListD c1Sys emptyW [1, 2]).bind (runW c1Sys pickFirstD 10) =
      .ok ⟨[], [(1, 10), (2, 20), (3, 31), (4, 25)], [1, 2, 4, 3]⟩ ∧
    (queueListD c1Sys emptyW [1, 2]).bind (runW c1Sys pickLastD 10) =
      .ok ⟨[], [(2, 20), (4, 25), (3, 32), (1, 10)], [2, 3, 5, 1]⟩ ∧
    lookupA [(1, 10), (2, 20), (3, 31), (4, 25)] 3 = some 31 ∧
    lookupA [(2, 20), (4, 25), (3, 32), (1, 10)] 3 = some 32 := by decide

/-- Claim C7.  Queueing a function discovery at an RVA that already has a
pending function discovery (and is not yet found): a different parser
function is a fatal conflict; a hint on the new discovery only replaces
the pending entry with the hinted one; no hint on the new discovery keeps
the existing entry (so a hint on the pending side survives); equal hints
keep the existing entry; unequal hints are a fatal conflict. -/
theorem c7_function_discovery_reconciliation
    (pending : List (Nat × FnDiscovery)) (found : List (Nat × Nat))
    (d prev : FnDiscovery)
    (hptr : badPtr d.ptr = false)
    (hfound : lookupA found d.ptr = none)
    (hpend : lookupA pending d.ptr = some prev) :
    (d.parserFn ≠ prev.parserFn → queueFn pending found d = .error ()) ∧
    (d.parserFn = prev.parserFn →
      (d.info.isSome = true → prev.info = none →
        queueFn pending found d = .ok (setA pending d.ptr d)) ∧
      (d.info = none → queueFn pending found d = .ok pending) ∧
      (∀ x y, d.info = some x → prev.info = some y → x = y →
        queueFn pending found d = .ok pending) ∧
      (∀ x y, d.info = some x → prev.info = some y → x ≠ y →
        queueFn pending found d = .error ())) := by
  unfold queueFn
  rw [hptr, hfound, hpend]
  simp only [Option.isSome_none, Bool.false_eq_true, if_false]
  constructor
  · intro hne
    unfold FnDiscovery.compare
    rw [if_pos hne]
  · intro heq
    refine ⟨?_, ?_, ?_, ?_⟩
    · intro hsome hnone
      unfold FnDiscovery.compare
      rw [if_neg (by simp [heq]), if_pos (by simp [hsome, hnone])]
    · intro hnone
      have hc : d.compare prev = .keep := by
        unfold FnDiscovery.compare
        rw [if_neg (by simp [heq]), if_neg (by simp [hnone]),
          if_pos (by simp [hnone])]
      rw [hc]
    · intro x y hx hy hxy
      unfold FnDiscovery.compare
      rw [if_neg (by simp [heq]), if_neg (by simp [hx, hy]),
        if_neg (by simp [hx]), if_neg (by simp [hx, hy, hxy])]
    · intro x y hx hy hxy
      unfold FnDiscovery.compare
      rw [if_neg (by simp [heq]), if_neg (by simp [hx, hy]),
        if_neg (by simp [hx]), if_pos (by simp [hx, hy, hxy])]

/-- Witness for `c7_function_discovery_reconciliation`: a hinted discovery
queued over an unhinted pending discovery at RVA 5 replaces it, leaving
the hinted discovery pending. -/
theorem c7_function_discovery_reconciliation_witness :
    badPtr c7New.ptr = false ∧
    queueFn [(5, c7Prev)] [] c7New = .ok (setA [(5, c7Prev)] c7New.ptr c7New) ∧
    lookupA (setA [(5, c7Prev)] c7New.ptr c7New) 5 = some c7New :=
  ⟨by decide,
    ((c7_function_discovery_reconciliation [(5, c7Prev)] [] c7New c7Prev
      (by decide) (by rfl) (by decide)).2 (by decide)).1 (by decide) (by decide),
    by decide⟩

/-! ### Claim C1 (amended): order independence of the worklist -/

/-- `lookupA` after `setA`. -/
theorem lookupA_setA {K V : Type} [DecidableEq K] (l : List (K × V))
    (k p : K) (v : V) :
    lookupA (setA l k v) p = if p = k then some v else lookupA l p := by
  induction l with
  | nil => simp [setA, lookupA]
  | cons head rest ih =>
    obtain ⟨k', v'⟩ := head
    by_cases h1 : k = k'
    · subst h1
      by_cases h3 : p = k <;> simp [setA, lookupA, h3]
    · by_cases h2 : p = k'
      · subst h2
        have h3 : ¬ p = k := fun hh => h1 hh.symm
        simp [setA, lookupA, h1, h3]
      · simp [setA, lookupA, h1, h2, ih]

/-- A key outside the key list looks up to nothing. -/
theorem lookupA_eq_none_iff {K V : Type} [DecidableEq K]
    (l : List (K × V)) (k : K) :
    lookupA l k = none ↔ k ∉ l.map Prod.fst := by
  induction l with
  | nil => simp [lookupA]
  | cons head rest ih =>
    obtain ⟨k', v'⟩ := head
    by_cases h : k = k' <;> simp [lookupA, h, ih]

/-- `lookupA` after `eraseA` (unique keys). -/
theorem lookupA_eraseA {K V : Type} [DecidableEq K] (l : List (K × V))
    (k p : K) (hnd : (l.map Prod.fst).Nodup) :
    lookupA (eraseA l k) p = if p = k then none else lookupA l p := by
  induction l with
  | nil => simp [eraseA, lookupA]
  | cons head rest ih =>
    obtain ⟨k', v'⟩ := head
    simp only [List.map_cons, List.nodup_cons] at hnd
    by_cases h1 : k = k'
    · subst h1
      by_cases h3 : p = k
      · subst h3
        simp [eraseA, (lookupA_eq_none_iff rest p).2 hnd.1]
      · simp [eraseA, lookupA, h3]
    · by_cases h2 : p = k'
      · subst h2
        have h3 : ¬ p = k := fun hh => h1 hh.symm
        simp [eraseA, lookupA, h1, h3]
      · simp [eraseA, lookupA, h1, h2, ih hnd.2]

/-- Entries of `setA` come from the original list or are the new pair. -/
theorem mem_setA {K V : Type} [DecidableEq K] {l : List (K × V)}
    {k : K} {v : V} {e : K × V} (h : e ∈ setA l k v) :
    e ∈ l ∨ e = (k, v) := by
  induction l with
  | nil => simpa [setA] using h
  | cons head rest ih =>
    obtain ⟨k', v'⟩ := head
    by_cases h1 : k = k'
    · subst h1
      rw [show setA ((k, v') :: rest) k v = (k, v) :: rest by simp [setA],
        List.mem_cons] at h
      rcases h with h | h
      · exact Or.inr h
      · exact Or.inl (List.mem_cons_of_mem _ h)
    · rw [show setA ((k', v') :: rest) k v = (k', v') :: setA rest k v by
          simp [setA, h1],
        List.mem_cons] at h
      rcases h with h | h
      · exact Or.inl (h ▸ List.mem_cons_self _ _)
      · rcases ih h with h | h
        · exact Or.inl (List.mem_cons_of_mem _ h)
        · exact Or.inr h

/-- `setA` keeps key uniqueness. -/
theorem setA_keys_nodup {K V : Type} [DecidableEq K] {l : List (K × V)}
    (k : K) (v : V) (hnd : (l.map Prod.fst).Nodup) :
    ((setA l k v).map Prod.fst).Nodup := by
  induction l with
  | nil => simp [setA]
  | cons head rest ih =>
    obtain ⟨k', v'⟩ := head
    simp only [List.map_cons, List.nodup_cons] at hnd
    by_cases h1 : k = k'
    · subst h1
      rw [show setA ((k, v') :: rest) k v = (k, v) :: rest by simp [setA],
        List.map_cons, List.nodup_cons]
      exact hnd
    · rw [show setA ((k', v') :: rest) k v = (k', v') :: setA rest k v by
          simp [setA, h1],
        List.map_cons, List.nodup_cons]
      refine ⟨?_, ih hnd.2⟩
      intro hmem
      rcases List.mem_map.1 hmem with ⟨e, he, hfst⟩
      rcases mem_setA he with he' | he'
      · refine hnd.1 ?_
        have hm : e.1 ∈ rest.map Prod.fst := List.mem_map_of_mem Prod.fst he'
        rwa [hfst] at hm
      · refine h1 ?_
        rw [he'] at hfst
        exact hfst

/-- `eraseA` is a sublist. -/
theorem eraseA_sublist {K V : Type} [DecidableEq K] (l : List (K × V))
    (k : K) : (eraseA l k).Sublist l := by
  induction l with
  | nil => simp [eraseA]
  | cons head rest ih =>
    obtain ⟨k', v'⟩ := head
    by_cases h1 : k = k'
    · simp only [eraseA, if_pos h1]
      exact List.sublist_cons_self _ _
    · simp only [eraseA, if_neg h1]
      exact ih.cons₂ _

/-- Entries of `eraseA` come from the original list. -/
theorem mem_eraseA {K V : Type} [DecidableEq K] {l : List (K × V)}
    {k : K} {e : K × V} (h : e ∈ eraseA l k) : e ∈ l :=
  (eraseA_sublist l k).mem h

/-- `eraseA` keeps key uniqueness. -/
theorem eraseA_keys_nodup {K V : Type} [DecidableEq K] {l : List (K × V)}
    (k : K) (hnd : (l.map Prod.fst).Nodup) :
    ((eraseA l k).map Prod.fst).Nodup :=
  hnd.sublist ((eraseA_sublist l k).map Prod.fst)

/-- `lookupA` across an append. -/
theorem lookupA_append {K V : Type} [DecidableEq K] (l1 l2 : List (K × V))
    (p : K) :
    lookupA (l1 ++ l2) p =
      match lookupA l1 p with
      | some w => some w
      | none => lookupA l2 p := by
  induction l1 with
  | nil => simp [lookupA]
  | cons head rest ih =>
    obtain ⟨k', v'⟩ := head
    by_cases h : p = k' <;> simp [lookupA, h, ih]

/-- The head policy returns a member of the queue. -/
theorem pickFirstD_sound : ∀ (l : List (Nat × Nat)) (e : Nat × Nat),
    pickFirstD l = some e → e ∈ l := by
  intro l e h
  cases l with
  | nil => cases h
  | cons a l =>
    injection h with h
    exact h ▸ List.mem_cons_self a l

/-- The last-entry policy returns a member of the queue. -/
theorem pickLastD_sound : ∀ (l : List (Nat × Nat)) (e : Nat × Nat),
    pickLastD l = some e → e ∈ l := by
  intro l e h
  unfold pickLastD at h
  obtain ⟨hne, heq⟩ := List.mem_getLast?_eq_getLast (Option.mem_def.2 h)
  exact heq ▸ List.getLast_mem hne

/-- Effect of a successful `queue`: `found` and the processed trace are
untouched, coverage is monotone, any new pending entry is the queued
discovery under its own (queueable) ptr, the queued ptr ends up covered,
and key uniqueness is kept. -/
theorem queueD_ok_effect {Y : DSys} {s : WState} {d : Nat} {s' : WState}
    (h : queueD Y s d = .ok s') :
    s'.found = s.found ∧
    s'.processed = s.processed ∧
    (∀ p, coveredW s p → coveredW s' p) ∧
    (∀ e ∈ s'.pending, e ∈ s.pending ∨
      (e = (Y.ptrF d, d) ∧ badPtr (Y.ptrF d) = false)) ∧
    (badPtr (Y.ptrF d) = false → coveredW s' (Y.ptrF d)) ∧
    ((s.pending.map Prod.fst).Nodup → (s'.pending.map Prod.fst).Nodup) := by
  unfold queueD at h
  split at h
  · -- dropped: null/sentinel ptr
    rename_i hbad
    injection h with h
    subst h
    exact ⟨rfl, rfl, fun _ hc => hc, fun e he => Or.inl he,
      fun hb => absurd hbad (by simp [hb]), fun hnd => hnd⟩
  · rename_i hbad
    split at h
    · -- dropped: ptr already found
      rename_i hfound
      injection h with h
      subst h
      exact ⟨rfl, rfl, fun _ hc => hc, fun e he => Or.inl he,
        fun _ => Or.inl hfound, fun hnd => hnd⟩
    · rename_i hfound
      split at h
      · rename_i prev hprev
        split at h
        · cases h
        · -- replace
          injection h with h
          subst h
          refine ⟨rfl, rfl, ?_, ?_, ?_, ?_⟩
          · intro p hc
            rcases hc with hc | hc
            · exact Or.inl hc
            · refine Or.inr ?_
              simp only [lookupA_setA]
              split
              · rfl
              · exact hc
          · intro e he
            rcases mem_setA he with he | he
            · exact Or.inl he
            · exact Or.inr ⟨he, by simpa using hbad⟩
          · intro _
            refine Or.inr ?_
            simp [lookupA_setA]
          · exact fun hnd => setA_keys_nodup _ _ hnd
        · -- keep
          injection h with h
          subst h
          exact ⟨rfl, rfl, fun _ hc => hc, fun e he => Or.inl he,
            fun _ => Or.inr (by simp [hprev]), fun hnd => hnd⟩
      · -- append
        rename_i hprev
        injection h with h
        subst h
        refine ⟨rfl, rfl, ?_, ?_, ?_, ?_⟩
        · intro p hc
          rcases hc with hc | hc
          · exact Or.inl hc
          · refine Or.inr ?_
            rw [lookupA_append]
            cases hq : lookupA s.pending p
            · rw [hq] at hc
              cases hc
            · rfl
        · intro e he
          rcases List.mem_append.1 he with he | he
          · exact Or.inl he
          · exact Or.inr ⟨by simpa using he, by simpa using hbad⟩
        · intro _
          refine Or.inr ?_
          rw [lookupA_append, hprev]
          simp [lookupA]
        · intro hnd
          have hk : Y.ptrF d ∉ s.pending.map Prod.fst :=
            (lookupA_eq_none_iff _ _).1 hprev
          simp [List.nodup_append, hnd, hk]
/-- Effect of successfully queueing a list of discoveries, composing
`queueD_ok_effect` along the list. -/
theorem queueListD_ok_effect {Y : DSys} :
    ∀ {ds : List Nat} {s s' : WState}, queueListD Y s ds = .ok s' →
      s'.found = s.found ∧
      s'.processed = s.processed ∧
      (∀ p, coveredW s p → coveredW s' p) ∧
      (∀ e ∈ s'.pending, e ∈ s.pending ∨
        (e.1 = Y.ptrF e.2 ∧ e.2 ∈ ds ∧ badPtr e.1 = false)) ∧
      (∀ d ∈ ds, badPtr (Y.ptrF d) = false → coveredW s' (Y.ptrF d)) ∧
      ((s.pending.map Prod.fst).Nodup → (s'.pending.map Prod.fst).Nodup) := by
  intro ds
  induction ds with
  | nil =>
    intro s s' h
    injection h with h
    subst h
    exact ⟨rfl, rfl, fun _ hc => hc, fun e he => Or.inl he,
      fun d hd => absurd hd (List.not_mem_nil d), fun hnd => hnd⟩
  | cons d ds ih =>
    intro s s' h
    rw [queueListD] at h
    obtain ⟨s1, hq, h⟩ := except_bind_ok_elim h
    obtain ⟨hf1, hp1, hc1, he1, hn1, hnd1⟩ := queueD_ok_effect hq
    obtain ⟨hf2, hp2, hc2, he2, hn2, hnd2⟩ := ih h
    refine ⟨hf2.trans hf1, hp2.trans hp1, fun p hc => hc2 p (hc1 p hc), ?_, ?_,
      fun hnd => hnd2 (hnd1 hnd)⟩
    · intro e he
      rcases he2 e he with he | he
      · rcases he1 e he with he | he
        · exact Or.inl he
        · exact Or.inr ⟨by simp [he.1], by simp [he.1], by simp [he.1, he.2]⟩
      · exact Or.inr ⟨he.1, List.mem_cons_of_mem d he.2.1, he.2.2⟩
    · intro d' hd' hbad'
      rcases List.mem_cons.1 hd' with hd' | hd'
      · subst hd'
        exact hc2 _ (hn1 hbad')
      · exact hn2 d' hd' hbad'

/-- Effect of a successful `perform` loop: the processed trace is
untouched, `found` changes only at the processed discovery's key, where
it ends at the last yielded artefact; coverage is monotone, new pending
entries come from the emitted discoveries, every emitted queueable ptr is
covered, and key uniqueness is kept. -/
theorem performFoldD_ok_effect {Y : DSys} {pd : Nat} :
    ∀ {xs : List (Sum Nat Nat)} {s s' : WState},
      performFoldD Y pd s xs = .ok s' →
      s'.processed = s.processed ∧
      (∀ p, p ≠ pd → lookupA s'.found p = lookupA s.found p) ∧
      (lookupA s'.found pd =
        match lastInr xs with
        | some a => some a
        | none => lookupA s.found pd) ∧
      (∀ p, coveredW s p → coveredW s' p) ∧
      (∀ e ∈ s'.pending, e ∈ s.pending ∨
        (e.1 = Y.ptrF e.2 ∧ e.2 ∈ emittedOf Y xs ∧ badPtr e.1 = false)) ∧
      (∀ d' ∈ emittedOf Y xs, badPtr (Y.ptrF d') = false →
        coveredW s' (Y.ptrF d')) ∧
      ((s.pending.map Prod.fst).Nodup → (s'.pending.map Prod.fst).Nodup) := by
  intro xs
  induction xs with
  | nil =>
    intro s s' h
    injection h with h
    subst h
    exact ⟨rfl, fun _ _ => rfl, rfl, fun _ hc => hc, fun e he => Or.inl he,
      fun d hd => absurd hd (List.not_mem_nil d), fun hnd => hnd⟩
  | cons x xs ih =>
    intro s s' h
    cases x with
    | inl d' =>
      rw [performFoldD] at h
      obtain ⟨s1, hq, h⟩ := except_bind_ok_elim h
      obtain ⟨hf1, hp1, hc1, he1, hn1, hnd1⟩ := queueD_ok_effect hq
      obtain ⟨hp2, hfne2, hfat2, hc2, he2, hn2, hnd2⟩ := ih h
      refine ⟨hp2.trans hp1, ?_, ?_, fun p hc => hc2 p (hc1 p hc), ?_, ?_,
        fun hnd => hnd2 (hnd1 hnd)⟩
      · intro p hp
        rw [hfne2 p hp, hf1]
      · rw [hfat2, hf1]
        rfl
      · intro e he
        rcases he2 e he with he | he
        · rcases he1 e he with he | he
          · exact Or.inl he
          · refine Or.inr ⟨by simp [he.1], ?_, by simp [he.1, he.2]⟩
            rw [he.1]
            exact List.mem_cons_self _ _
        · exact Or.inr ⟨he.1, List.mem_cons_of_mem _ he.2.1, he.2.2⟩
      · intro q hq' hbad'
        rcases List.mem_cons.1 hq' with hq' | hq'
        · subst hq'
          exact hc2 _ (hn1 hbad')
        · exact hn2 q hq' hbad'
    | inr a =>
      rw [performFoldD] at h
      obtain ⟨s1, hq, h⟩ := except_bind_ok_elim h
      obtain ⟨hf1, hp1, hc1, he1, hn1, hnd1⟩ := queueListD_ok_effect hq
      obtain ⟨hp2, hfne2, hfat2, hc2, he2, hn2, hnd2⟩ := ih h
      have hrf : (registerFoundD s pd a).found = setA s.found pd a := rfl
      refine ⟨hp2.trans hp1, ?_, ?_, ?_, ?_, ?_, fun hnd => hnd2 (hnd1 hnd)⟩
      · intro p hp
        rw [hfne2 p hp, hf1, hrf, lookupA_setA, if_neg hp]
      · rw [hfat2]
        show (match lastInr xs with
          | some b => some b
          | none => lookupA s1.found pd) = _
        rw [hf1, hrf, lookupA_setA, if_pos rfl]
        cases hli : lastInr xs <;> simp [lastInr, hli]
      · intro p hc
        refine hc2 p (hc1 p ?_)
        rcases hc with hc | hc
        · refine Or.inl ?_
          rw [hrf, lookupA_setA]
          split
          · rfl
          · exact hc
        · exact Or.inr hc
      · intro e he
        rcases he2 e he with he | he
        · rcases he1 e he with he | he
          · exact Or.inl he
          · exact Or.inr ⟨he.1,
              List.mem_append.2 (Or.inl he.2.1), he.2.2⟩
        · exact Or.inr ⟨he.1,
            List.mem_append.2 (Or.inr he.2.1), he.2.2⟩
      · intro q hq' hbad'
        rcases List.mem_append.1 hq' with hq' | hq'
        · exact hc2 _ (hn1 q hq' hbad')
        · exact hn2 q hq' hbad'
/-- One `process_one` step preserves the run invariant (for any policy
that returns an entry of the queue, and any system whose discoveries each
yield at least one artefact), and only ever extends the processed
trace. -/
theorem processOneD_inv {Y : DSys} {ds0 : List Nat}
    {pick : List (Nat × Nat) → Option (Nat × Nat)} {s s' : WState}
    (hpick : ∀ l e, pick l = some e → e ∈ l)
    (H3 : ∀ d, (lastInr (Y.performF d)).isSome = true)
    (hinv : WInv Y ds0 s) (h : processOneD Y pick s = .ok s') :
    WInv Y ds0 s' ∧ ∀ d ∈ s.processed, d ∈ s'.processed := by
  obtain ⟨hpend, hproc, hchar, hpfound, hcov, hcov0, hnd⟩ := hinv
  unfold processOneD at h
  split at h
  · injection h with h
    subst h
    exact ⟨⟨hpend, hproc, hchar, hpfound, hcov, hcov0, hnd⟩,
      fun d hd => hd⟩
  · rename_i p d hp
    have hmem : (p, d) ∈ s.pending := hpick _ _ hp
    obtain ⟨hkey, hreach, hbadp⟩ := hpend _ hmem
    obtain ⟨hp2, hfne2, hfat2, hc2, he2, hn2, hnd2⟩ := performFoldD_ok_effect h
    obtain ⟨b, hb⟩ := Option.isSome_iff_exists.1 (H3 d)
    have hfoundp : lookupA s'.found p = some b := by
      rw [hfat2, hb]
    have hprocessed : s'.processed = s.processed ++ [d] := hp2
    have hcovstep : ∀ q, coveredW s q → coveredW s' q := by
      intro q hq
      by_cases hqp : q = p
      · subst hqp
        exact Or.inl (by rw [hfoundp]; rfl)
      · refine hc2 q ?_
        rcases hq with hq | hq
        · exact Or.inl hq
        · refine Or.inr ?_
          show (lookupA (eraseA s.pending p) q).isSome = true
          rw [lookupA_eraseA _ _ _ hnd, if_neg hqp]
          exact hq
    refine ⟨⟨?_, ?_, ?_, ?_, ?_, ?_, ?_⟩, ?_⟩
    · -- pending entries
      intro e he
      rcases he2 e he with he | he
      · exact hpend e (mem_eraseA he)
      · exact ⟨he.1.symm, VReach.step d e.2 hreach he.2.1 (he.1 ▸ he.2.2),
          he.2.2⟩
    · -- processed reachable
      intro d' hd'
      rw [hprocessed] at hd'
      rcases List.mem_append.1 hd' with hd' | hd'
      · exact hproc d' hd'
      · rw [List.mem_singleton.1 hd']
        exact hreach
    · -- found characterisation
      intro p' a ha
      by_cases hpp : p' = p
      · subst hpp
        rw [hfoundp] at ha
        injection ha with ha
        subst ha
        refine ⟨d, ?_, hkey, hb⟩
        rw [hprocessed]
        exact List.mem_append_right _ (List.mem_singleton_self d)
      · rw [hfne2 p' hpp] at ha
        obtain ⟨d'', hd'', hk'', ha''⟩ := hchar p' a ha
        refine ⟨d'', ?_, hk'', ha''⟩
        rw [hprocessed]
        exact List.mem_append_left _ hd''
    · -- processed discoveries are found
      intro d' hd'
      rw [hprocessed] at hd'
      rcases List.mem_append.1 hd' with hd' | hd'
      · by_cases hqp : Y.ptrF d' = p
        · rw [hqp, hfoundp]
          rfl
        · rw [hfne2 _ hqp]
          exact hpfound d' hd'
      · rw [List.mem_singleton.1 hd', hkey, hfoundp]
        rfl
    · -- coverage of emissions
      intro d' hd' d'' hd'' hbad''
      rw [hprocessed] at hd'
      rcases List.mem_append.1 hd' with hd' | hd'
      · exact hcovstep _ (hcov d' hd' d'' hd'' hbad'')
      · rw [List.mem_singleton.1 hd'] at hd''
        exact hn2 d'' hd'' hbad''
    · -- coverage of seeds
      exact fun d' hd' hbad' => hcovstep _ (hcov0 d' hd' hbad')
    · -- pending key uniqueness
      exact hnd2 (eraseA_keys_nodup _ hnd)
    · -- processed trace extension
      intro d' hd'
      rw [hprocessed]
      exact List.mem_append_left _ hd'
/-- A successful `process_all` preserves the invariant, extends the
processed trace and drains the queue. -/
theorem runW_inv {Y : DSys} {ds0 : List Nat}
    {pick : List (Nat × Nat) → Option (Nat × Nat)}
    (hpick : ∀ l e, pick l = some e → e ∈ l)
    (H3 : ∀ d, (lastInr (Y.performF d)).isSome = true) :
    ∀ (fuel : Nat) (s s' : WState), WInv Y ds0 s →
      runW Y pick fuel s = .ok s' →
      WInv Y ds0 s' ∧ (∀ d ∈ s.processed, d ∈ s'.processed) ∧
        s'.pending = [] := by
  intro fuel
  induction fuel with
  | zero =>
    intro s s' hinv h
    rw [runW] at h
    split at h
    · rename_i hp
      injection h with h
      subst h
      exact ⟨hinv, fun d hd => hd, hp⟩
    · cases h
  | succ fuel ih =>
    intro s s' hinv h
    rw [runW] at h
    split at h
    · rename_i hp
      injection h with h
      subst h
      exact ⟨hinv, fun d hd => hd, hp⟩
    · obtain ⟨s1, h1, h⟩ := except_bind_ok_elim h
      obtain ⟨hinv1, hext1⟩ := processOneD_inv hpick H3 hinv h1
      obtain ⟨hinv2, hext2, hp2⟩ := ih s1 s' hinv1 h
      exact ⟨hinv2, fun d hd => hext2 d (hext1 d hd), hp2⟩

/-- With an empty queue and unique ptrs among reachable discoveries, the
invariant forces every reachable discovery to have been processed. -/
theorem processed_complete {Y : DSys} {ds0 : List Nat} {s : WState}
    (H1 : ∀ d d', VReach Y ds0 d → VReach Y ds0 d' →
      Y.ptrF d = Y.ptrF d' → d = d')
    (hinv : WInv Y ds0 s) (hpend : s.pending = []) :
    ∀ d, VReach Y ds0 d → d ∈ s.processed := by
  obtain ⟨_, hproc, hchar, _, hcov, hcov0, _⟩ := hinv
  have hfromCovered : ∀ d, VReach Y ds0 d → coveredW s (Y.ptrF d) →
      d ∈ s.processed := by
    intro d hreach hc
    rcases hc with hc | hc
    · obtain ⟨a, ha⟩ := Option.isSome_iff_exists.1 hc
      obtain ⟨d'', hd'', hk'', -⟩ := hchar _ a ha
      rw [H1 d d'' hreach (hproc d'' hd'') hk''.symm]
      exact hd''
    · rw [hpend] at hc
      cases hc
  intro d hd
  induction hd with
  | init d hd0 hbad => exact hfromCovered d (.init d hd0 hbad) (hcov0 d hd0 hbad)
  | step d d' hd hmem hbad ihd =>
    exact hfromCovered d' (.step d d' hd hmem hbad)
      (hcov (by exact d) ihd d' hmem hbad)

/-- Claim C1, amended.  From the same initial queue, two successful
complete runs of the worklist under different scheduling policies produce
identical `found` maps provided no two distinct reachable discoveries
share a ptr and every discovery's `perform` yields at least one artefact.
The counterexample shows the claim fails without the no-shared-ptr
proviso: `queue` drops a discovery whose ptr is already found before
comparing it, so distinct discoveries at one ptr are resolved by
processing order. -/
theorem c1_worklist_order_independent
    (Y : DSys) (ds0 : List Nat)
    (pick1 pick2 : List (Nat × Nat) → Option (Nat × Nat))
    (hpick1 : ∀ l e, pick1 l = some e → e ∈ l)
    (hpick2 : ∀ l e, pick2 l = some e → e ∈ l)
    (H1 : ∀ d d', VReach Y ds0 d → VReach Y ds0 d' →
      Y.ptrF d = Y.ptrF d' → d = d')
    (H3 : ∀ d, (lastInr (Y.performF d)).isSome = true)
    (fuel1 fuel2 : Nat) (s0 s1 s2 : WState)
    (h0 : queueListD Y emptyW ds0 = .ok s0)
    (h1 : runW Y pick1 fuel1 s0 = .ok s1)
    (h2 : runW Y pick2 fuel2 s0 = .ok s2) :
    ∀ p, lookupA s1.found p = lookupA s2.found p := by
  have hinv0 : WInv Y ds0 s0 := by
    obtain ⟨hf, hp, -, he, hn, hnd⟩ := queueListD_ok_effect h0
    refine ⟨?_, ?_, ?_, ?_, ?_, ?_, ?_⟩
    · intro e he'
      rcases he e he' with he' | he'
      · cases he'
      · exact ⟨he'.1.symm, .init e.2 he'.2.1 (he'.1 ▸ he'.2.2), he'.2.2⟩
    · intro d hd
      rw [hp] at hd
      cases hd
    · intro p a ha
      rw [hf] at ha
      cases ha
    · intro d hd
      rw [hp] at hd
      cases hd
    · intro d hd
      rw [hp] at hd
      cases hd
    · exact hn
    · exact hnd (by simp [emptyW])
  obtain ⟨hinv1, -, hpend1⟩ := runW_inv hpick1 H3 fuel1 s0 s1 hinv0 h1
  obtain ⟨hinv2, -, hpend2⟩ := runW_inv hpick2 H3 fuel2 s0 s2 hinv0 h2
  intro p
  cases hq1 : lookupA s1.found p with
  | none =>
    cases hq2 : lookupA s2.found p with
    | none => rfl
    | some a =>
      obtain ⟨d, hd, hk, -⟩ := hinv2.2.2.1 p a hq2
      have hd1 : d ∈ s1.processed :=
        processed_complete H1 hinv1 hpend1 d (hinv2.2.1 d hd)
      have := hinv1.2.2.2.1 d hd1
      rw [hk, hq1] at this
      cases this
  | some a =>
    obtain ⟨d, hd, hk, hart⟩ := hinv1.2.2.1 p a hq1
    have hd2 : d ∈ s2.processed :=
      processed_complete H1 hinv2 hpend2 d (hinv1.2.1 d hd)
    obtain ⟨a', ha'⟩ :=
      Option.isSome_iff_exists.1 (hinv2.2.2.2.1 d hd2)
    rw [hk] at ha'
    obtain ⟨d'', hd'', hk'', hart''⟩ := hinv2.2.2.1 p a' ha'
    have hdd : d'' = d :=
      H1 d'' d (hinv2.2.1 d'' hd'') (hinv1.2.1 d hd) (by rw [hk'', hk])
    rw [hdd] at hart''
    rw [ha', hart''.symm.trans hart]

/-- Witness for `c1_worklist_order_independent`: a system with injective
ptrs, seeds 1 and 2, run first-queued-first versus last-queued-first; both
runs terminate and the theorem yields agreement of the found maps, checked
at ptr 2. -/
theorem c1_worklist_order_independent_witness :
    queueListD c1WitSys emptyW [1, 2] = .ok ⟨[(1, 1), (2, 2)], [], []⟩ ∧
    runW c1WitSys pickFirstD 5 ⟨[(1, 1), (2, 2)], [], []⟩ =
      .ok ⟨[], [(1, 101), (2, 102)], [1, 2]⟩ ∧
    runW c1WitSys pickLastD 5 ⟨[(1, 1), (2, 2)], [], []⟩ =
      .ok ⟨[], [(2, 102), (1, 101)], [2, 1]⟩ ∧
    lookupA ([(1, 101), (2, 102)] : List (Nat × Nat)) 2 =
      lookupA ([(2, 102), (1, 101)] : List (Nat × Nat)) 2 :=
  ⟨by decide, by decide, by decide,
    c1_worklist_order_independent c1WitSys [1, 2] pickFirstD pickLastD
      pickFirstD_sound pickLastD_sound
      (fun d d' _ _ h => h) (fun d => rfl) 5 5
      ⟨[(1, 1), (2, 2)], [], []⟩ ⟨[], [(1, 101), (2, 102)], [1, 2]⟩
      ⟨[], [(2, 102), (1, 101)], [2, 1]⟩
      (by decide) (by decide) (by decide) 2⟩
end UD
